import Mathlib

/-!
Verification of the data-transformation core of a client-rendered market-analysis
dashboard.  The development shallowly embeds the TypeScript source:

* `dataGenerator` module: the seeded synthetic record generator, its process-wide
  cache (`getData` / `clearDataCache`) and the static hierarchy catalogs.
* `MarketAnalysis` page: the per-year segment aggregators, the product-type
  chart builder, the region/country percentage breakdown, the waterfall
  (incremental-opportunity) series, the CAGR calculators and the iterative
  bubble-separation layout resolver.

JavaScript numbers are modelled as exact rationals (`ℚ`) except in the layout
resolver and the CAGR formula, where `Math.sqrt` / `Math.cos` / `Math.sin` /
`Math.pow` force the reals.  `Map`/object accumulation is modelled with
insertion-ordered association lists; the template-literal composite keys
`` `${year}-${segment}` `` are modelled as pairs (for the numeric years and
category strings in use the string encoding is injective, so the pair model is
faithful).  `Math.random()` is modelled as an explicit stream `ℕ → ℝ` of draws.
-/

set_option maxRecDepth 100000

namespace SalesAnalysis

/-- Two-decimal rounding, `Math.round(x * 100) / 100` (half away from zero is
half towards `+∞` in JS; all rounded quantities here are produced by
`Math.round` which rounds half up). -/
def round2 (x : ℚ) : ℚ := (⌊x * 100 + 1/2⌋ : ℚ) / 100

/-- Floor of a rational to a natural number, `Math.floor` applied to the
non-negative index expressions `seededRandom() * arr.length`. -/
def natFloor (q : ℚ) : ℕ := (⌊q⌋).toNat

/-- Association-list lookup, modelling `record[key]` on a JS object literal. -/
def alookup {α : Type} : List (String × α) → String → Option α
  | [], _ => none
  | (k, v) :: t, key => if key = k then some v else alookup t key

/-- The linear-congruential step `seed = (seed * 9301 + 49297) % 233280` of
`seededRandom`. -/
def lcgNext (seed : ℕ) : ℕ := (seed * 9301 + 49297) % 233280

/-- One flat market record (interface `ShovelMarketData`). -/
structure ShovelMarketData where
  recordId : ℕ
  year : ℕ
  region : String
  country : String
  productType : String
  bladeMaterial : String
  handleLength : String
  application : String
  endUser : String
  distributionChannelType : String
  distributionChannel : String
  brand : String
  company : String
  price : ℚ
  volumeUnits : ℤ
  qty : ℤ
  revenue : ℚ
  marketValueUsd : ℚ
  value : ℚ
  marketSharePct : ℚ
  cagr : ℚ
  yoyGrowth : ℚ
  deriving DecidableEq

instance : Inhabited ShovelMarketData :=
  ⟨{ recordId := 0, year := 0, region := "", country := "", productType := "",
     bladeMaterial := "", handleLength := "", application := "", endUser := "",
     distributionChannelType := "", distributionChannel := "", brand := "",
     company := "", price := 0, volumeUnits := 0, qty := 0, revenue := 0,
     marketValueUsd := 0, value := 0, marketSharePct := 0, cagr := 0,
     yoyGrowth := 0 }⟩

/-- The 15 generated years `2021 + i`. -/
def genYears : List ℕ := (List.range 15).map (fun i => 2021 + i)

def genRegions : List String :=
  ["North India", "South India", "East India", "West India"]

def productTypesList : List String :=
  [ "Skin Care",
    "Skin Care - Serums",
    "Skin Care - Moisturizers & Creams",
    "Skin Care - Face Oils (Abhyanga / Ayurvedic oils)",
    "Skin Care - Face Wash & Cleansers",
    "Skin Care - Toners / Mists",
    "Skin Care - Sunscreen",
    "Hair Care",
    "Hair Care - Oils & Serums",
    "Hair Care - Shampoos",
    "Hair Care - Conditioners & Hair Masks",
    "Hair Care - Hair Growth & Scalp Treatments",
    "Body Care",
    "Body Care - Body Oils (Ayurvedic Abhyangsnan, Massage Oils)",
    "Body Care - Lotions & Butters",
    "Body Care - Body Wash / Scrubs",
    "Cosmetic & Beauty Enhancers",
    "Cosmetic & Beauty Enhancers - Makeup (base, eyes, lips)",
    "Cosmetic & Beauty Enhancers - Nail & Hand Care",
    "Cosmetology Kits",
    "Cosmetology Kits - Facial Kits (Anti-Aging, Hydration, Acne)",
    "Cosmetology Kits - Hair Treatment Kits",
    "Cosmetology Kits - Seasonal Wellness Kits (Festive, Bridal, Ritual-based)",
    "Cosmetology Kits - Travel + Daily Routine Kits" ]

def bladeMaterialsList : List String :=
  [ "Oils (Ayurvedic, Tonic, Carrier & Herbal blend)",
    "Creams & Lotions",
    "Serums (water/oil-based, actives)",
    "Gels & Mousse",
    "Powders (face packs, exfoliants, ubtan)",
    "Capsules / Ampoules",
    "Bars (soap, shampoo bars)",
    "Others (Sprays & Mists, etc.)" ]

def handleLengthsList : List String := ["Mass", "Premium", "Luxury"]

def applicationsList : List String :=
  [ "Gen Z (Ages 10-25)",
    "Millennials (Ages 26-41)",
    "Gen X (Ages 42-57)",
    "Baby Boomers (Ages 58+)" ]

def professionsList : List String :=
  [ "Students",
    "Corporate & Office Professionals",
    "Home & Family-Centric Consumers",
    "Health, Wellness & Beauty Professionals" ]

def salesChannelsList : List String :=
  [ "D2C & Digital Platforms",
    "D2C & Digital Platforms - E-commerce Marketplaces (Amazon, Flipkart, etc.)",
    "D2C & Digital Platforms - Brand D2C Websites & Apps",
    "D2C & Digital Platforms - Quick Commerce Platforms",
    "D2C & Digital Platforms - Social / Influencer-led Commerce",
    "Offline Retail",
    "Offline Retail - Supermarkets / Hypermarkets",
    "Offline Retail - Beauty & Cosmetic Specialty Stores",
    "Offline Retail - Pharmacies / Drugstores",
    "Offline Retail - Neighbourhood / Convenience Stores",
    "Offline Retail - Professional & Institutional - Salons & Spa Chains",
    "Offline Retail - Professional & Institutional - Aesthetic / Dermatology Clinics",
    "Others",
    "Others - Direct Selling, MLM Networks, etc." ]

def offlineChannelsList : List String :=
  ["Retail Stores", "Pharmacies", "Specialty Beauty Stores", "Ayurvedic Clinics"]

def onlineChannelsList : List String :=
  ["Ecommerce Platforms", "Brand Website", "Social Commerce"]

def brandsList : List String :=
  [ "Forest Essentials", "Kama Ayurveda", "Biotique", "Himalaya", "Patanjali",
    "Khadi Natural", "Shahnaz Husain", "Lotus Herbals", "Dabur", "Baidyanath" ]

def companiesList : List String :=
  [ "Forest Essentials Pvt Ltd", "Kama Ayurveda", "Biotique Bio Research",
    "Himalaya Wellness", "Patanjali Ayurved", "Khadi Natural", "Shahnaz Herbals",
    "Lotus Herbals", "Dabur India Ltd", "Baidyanath Ayurved" ]

/-- `countryMap`: every region maps to an empty country list. -/
def countryMapList : List (String × List String) :=
  [("North India", []), ("South India", []), ("East India", []), ("West India", [])]

structure PTMult where
  price : ℚ
  volume : ℚ
  cagr : ℚ
  deriving DecidableEq

structure BMMult where
  price : ℚ
  volume : ℚ
  deriving DecidableEq

structure AppMult where
  volume : ℚ
  price : ℚ
  deriving DecidableEq

structure ChMult where
  volume : ℚ
  price : ℚ
  deriving DecidableEq

structure RegMult where
  volume : ℚ
  marketShare : ℚ
  deriving DecidableEq

def productTypeMultipliers : List (String × PTMult) :=
  [ ("Skin Care", ⟨1, 1.2, 1.1⟩),
    ("Hair Care", ⟨0.9, 1.3, 1.2⟩),
    ("Body Care", ⟨0.85, 1.1, 1⟩),
    ("Cosmetic & Beauty Enhancers", ⟨1.3, 0.9, 1.15⟩),
    ("Cosmetology Kits", ⟨1.5, 0.8, 1.3⟩) ]

/-- `getProductTypeMultiplier`: look up the part before the first `" - "` and
default to the neutral multiplier. -/
def getProductTypeMultiplier (productType : String) : PTMult :=
  (alookup productTypeMultipliers ((productType.splitOn " - ").headD "")).getD ⟨1, 1, 1⟩

def bladeMaterialMultipliers : List (String × BMMult) :=
  [ ("Oils (Ayurvedic, Tonic, Carrier & Herbal blend)", ⟨1.2, 1.3⟩),
    ("Creams & Lotions", ⟨1, 1.2⟩),
    ("Serums (water/oil-based, actives)", ⟨1.4, 0.9⟩),
    ("Gels & Mousse", ⟨1.1, 1⟩),
    ("Powders (face packs, exfoliants, ubtan)", ⟨0.9, 1.1⟩),
    ("Capsules / Ampoules", ⟨1.6, 0.7⟩),
    ("Bars (soap, shampoo bars)", ⟨0.7, 1.4⟩),
    ("Others (Sprays & Mists, etc.)", ⟨1, 1⟩) ]

def applicationMultipliers : List (String × AppMult) :=
  [ ("Gen Z (Ages 10-25)", ⟨1.4, 0.9⟩),
    ("Millennials (Ages 26-41)", ⟨1.5, 1.2⟩),
    ("Gen X (Ages 42-57)", ⟨1.2, 1.3⟩),
    ("Baby Boomers (Ages 58+)", ⟨0.9, 1.4⟩) ]

def distributionChannelMultipliers : List (String × ChMult) :=
  [("Offline", ⟨1.3, 1.1⟩), ("Online", ⟨1.2, 0.95⟩)]

def regionMultipliers : List (String × RegMult) :=
  [ ("North India", ⟨1.5, 1.4⟩),
    ("South India", ⟨1.3, 1.3⟩),
    ("East India", ⟨1.2, 1.1⟩),
    ("West India", ⟨1.4, 1.2⟩) ]

/-- `brandPremiumMap`: `0.8 + (idx % 3) * 0.4`, three tiers 0.8 / 1.2 / 1.6. -/
def brandPremiumList : List (String × ℚ) :=
  brandsList.enum.map (fun p => (p.2, 0.8 + ((p.1 % 3 : ℕ) : ℚ) * 0.4))

/-- JS `s.startsWith(pre)`, computed on the character lists. -/
def startsWithStr (s pre : String) : Bool := pre.toList.isPrefixOf s.toList

/-- The ternary at the `distributionChannelType` local:
`salesChannel.startsWith('D2C') || ... ? salesChannel : 'Online'`. -/
def channelTernary (salesChannel : String) : String :=
  if startsWithStr salesChannel "D2C" || startsWithStr salesChannel "Offline" ||
      startsWithStr salesChannel "Others" then salesChannel else "Online"

/-- `salesChannel.includes('Offline')`. -/
def includesOffline (salesChannel : String) : Bool :=
  decide ("Offline".toList <:+: salesChannel.toList)

/-- The body of the innermost generation loop: draws one profession, sales
channel, channel, brand and company, derives the numeric fields, and returns
the pushed record together with the LCG state after the twelve draws. -/
def mkRecord (s0 : ℕ) (recordId : ℕ) (year : ℕ)
    (region country productType bladeMaterial handleLength application : String) :
    ShovelMarketData × ℕ :=
  let regionMult := (alookup regionMultipliers region).getD ⟨1, 1⟩
  let productMult := getProductTypeMultiplier productType
  let bladeMult := (alookup bladeMaterialMultipliers bladeMaterial).getD ⟨1, 1⟩
  let handleMult : ℚ :=
    if handleLength = "Luxury" then 1.5 else if handleLength = "Premium" then 1.2 else 0.8
  let appMult := (alookup applicationMultipliers application).getD ⟨1, 1⟩
  let s1 := lcgNext s0
  let profession := professionsList.getD (natFloor ((s1 : ℚ) / 233280 * professionsList.length)) ""
  let s2 := lcgNext s1
  let salesChannel := salesChannelsList.getD (natFloor ((s2 : ℚ) / 233280 * salesChannelsList.length)) ""
  -- the `distributionChannelType` local is computed but shadowed by the field
  -- assignment `distributionChannelType: salesChannel` in the pushed object
  let _distributionChannelTypeLocal := channelTernary salesChannel
  let channelMult :=
    (alookup distributionChannelMultipliers
      (if includesOffline salesChannel then "Offline" else "Online")).getD ⟨1, 1⟩
  let s3 := lcgNext s2
  let distributionChannel :=
    if includesOffline salesChannel then
      offlineChannelsList.getD (natFloor ((s3 : ℚ) / 233280 * offlineChannelsList.length)) ""
    else
      onlineChannelsList.getD (natFloor ((s3 : ℚ) / 233280 * onlineChannelsList.length)) ""
  let s4 := lcgNext s3
  let brand := brandsList.getD (natFloor ((s4 : ℚ) / 233280 * brandsList.length)) ""
  let brandMult := (alookup brandPremiumList brand).getD 1
  let s5 := lcgNext s4
  let company := companiesList.getD (natFloor ((s5 : ℚ) / 233280 * companiesList.length)) ""
  let s6 := lcgNext s5
  let basePrice : ℚ := 10 + (s6 : ℚ) / 233280 * 90
  let price := basePrice * productMult.price * bladeMult.price * brandMult * handleMult *
    (1 + ((year : ℚ) - 2021) * 0.02)
  let s7 := lcgNext s6
  let baseVolume : ℚ := 100 + (s7 : ℚ) / 233280 * 900
  let volumeUnits : ℤ :=
    ⌊baseVolume * regionMult.volume * productMult.volume * bladeMult.volume *
      appMult.volume * channelMult.volume * (1 + ((year : ℚ) - 2021) * 0.05)⌋
  let revenue := price * (volumeUnits : ℚ)
  let s8 := lcgNext s7
  let marketValueUsd := revenue * (0.9 + (s8 : ℚ) / 233280 * 0.2)
  let s9 := lcgNext s8
  let baseMarketShare : ℚ := 1 + (s9 : ℚ) / 233280 * 24
  let marketSharePct := baseMarketShare * regionMult.marketShare * brandMult
  let s10 := lcgNext s9
  let baseCAGR : ℚ := -2 + (s10 : ℚ) / 233280 * 12
  let cagr := baseCAGR * productMult.cagr
  let s11 := lcgNext s10
  let yoyGrowth : ℚ := -5 + (s11 : ℚ) / 233280 * 20
  let s12 := lcgNext s11
  let qty : ℤ := ⌊(volumeUnits : ℚ) * (0.8 + (s12 : ℚ) / 233280 * 0.4)⌋
  ({ recordId := recordId, year := year, region := region, country := country,
     productType := productType, bladeMaterial := bladeMaterial,
     handleLength := handleLength, application := application,
     endUser := profession, distributionChannelType := salesChannel,
     distributionChannel := distributionChannel, brand := brand, company := company,
     price := round2 price, volumeUnits := volumeUnits, qty := qty,
     revenue := round2 revenue, marketValueUsd := round2 marketValueUsd,
     value := round2 marketValueUsd, marketSharePct := round2 marketSharePct,
     cagr := round2 cagr, yoyGrowth := round2 yoyGrowth }, s12)

/-- One tuple per iteration of the nested `for` loops of
`generateComprehensiveData`: (year, region, country, productType,
bladeMaterial, handleLength, application), in loop order. -/
def genCombos : List (ℕ × String × String × String × String × String × String) :=
  genYears.flatMap fun year =>
    genRegions.flatMap fun region =>
      (let countries := (alookup countryMapList region).getD []
       if countries.length > 0 then countries else [region]).flatMap fun country =>
        productTypesList.flatMap fun productType =>
          bladeMaterialsList.flatMap fun bladeMaterial =>
            handleLengthsList.flatMap fun handleLength =>
              applicationsList.map fun application =>
                (year, region, country, productType, bladeMaterial, handleLength, application)

/-- Runs the loop bodies in order, threading the LCG state and the record id. -/
def genAll : ℕ → ℕ → List (ℕ × String × String × String × String × String × String) →
    List ShovelMarketData
  | _, _, [] => []
  | s, rid, c :: rest =>
    let r := mkRecord s rid c.1 c.2.1 c.2.2.1 c.2.2.2.1 c.2.2.2.2.1 c.2.2.2.2.2.1 c.2.2.2.2.2.2
    r.1 :: genAll r.2 (rid + 1) rest

/-- `generateComprehensiveData`: the LCG is reseeded to the constant 42 and the
record id to 100000 at the start of every invocation. -/
def generateComprehensiveData : List ShovelMarketData :=
  genAll 42 100000 genCombos

/-! ## The process-wide cache (`dataCache`, `getData`, `clearDataCache`)

The module-level mutable `dataCache` is modelled by explicit state passing:
a call takes the current cache and returns (result, new cache).  The
`try/catch` around the generator call is modelled by parameterizing over the
generator outcome (`Except`); the third component records whether this call
invoked the generator. -/

abbrev DataCache := Option (List ShovelMarketData)

/-- `getData` with an explicit generator outcome: on a cache miss the `try`
branch stores the generated data, the `catch` branch stores `[]`; on a hit the
cached array is returned unchanged.  The `Bool` is true iff the generator ran. -/
def getDataRes (gen : Except Unit (List ShovelMarketData)) (c : DataCache) :
    List ShovelMarketData × DataCache × Bool :=
  match c with
  | some d => (d, some d, false)
  | none =>
    match gen with
    | Except.ok d => (d, some d, true)
    | Except.error _ => ([], some [], true)

/-- `getData` as exported: the generator in this process is
`generateComprehensiveData`, which never throws. -/
def getData (c : DataCache) : List ShovelMarketData × DataCache :=
  let r := getDataRes (Except.ok generateComprehensiveData) c
  (r.1, r.2.1)

/-- `clearDataCache`: resets the cache to `null`. -/
def clearDataCache (_ : DataCache) : DataCache := none

/-- Cache states that can actually occur in a process: the initial empty cache,
and anything reachable from it through `getData` and `clearDataCache` calls. -/
inductive CacheReachable : DataCache → Prop
  | init : CacheReachable none
  | get {c : DataCache} : CacheReachable c → CacheReachable (getData c).2
  | clear {c : DataCache} : CacheReachable c → CacheReachable (clearDataCache c)

lemma cacheReachable_cases {c : DataCache} (h : CacheReachable c) :
    c = none ∨ c = some generateComprehensiveData := by
  induction h with
  | init => exact Or.inl rfl
  | get _ ih =>
    rcases ih with h | h <;> subst h <;> simp [getData, getDataRes]
  | clear _ _ => exact Or.inl rfl

/-- C1.  Generation is deterministic across cache clears: from any cache state
a process can be in, `clearDataCache(); getData()` returns a record list equal
field-for-field to the previous `getData()` result (both are the output of
`generateComprehensiveData`, whose LCG state is the constant 42 at the start of
every invocation). -/
theorem clearDataCache_getData_deterministic {c : DataCache}
    (h : CacheReachable c) :
    (getData (clearDataCache (getData c).2)).1 = (getData c).1 := by
  rcases cacheReachable_cases h with h | h <;> subst h <;>
    simp [getData, getDataRes, clearDataCache]

theorem clearDataCache_getData_deterministic_witness :
    CacheReachable (none : DataCache) ∧
      (getData (clearDataCache (getData none).2)).1 = (getData none).1 :=
  ⟨CacheReachable.init,
   clearDataCache_getData_deterministic CacheReachable.init⟩

/-- C9.  The cache contract: (a) if the generator throws, `getData` returns and
caches the empty array instead of propagating; (b) once a call has populated
the cache, the next call returns the very same array without running the
generator; (c) `clearDataCache` is idempotent. -/
theorem getData_cache_contract :
    getDataRes (Except.error ()) none = ([], some [], true) ∧
    (∀ (gen : Except Unit (List ShovelMarketData)) (c : DataCache),
      getDataRes gen (getDataRes gen c).2.1 =
        ((getDataRes gen c).1, (getDataRes gen c).2.1, false)) ∧
    (∀ c : DataCache, clearDataCache (clearDataCache c) = clearDataCache c) := by
  refine ⟨rfl, fun gen c => ?_, fun c => rfl⟩
  cases c with
  | some d => rfl
  | none => cases gen <;> rfl

/-! ## Facts about the LCG draws and the lookups -/

lemma lcgNext_lt (s : ℕ) : lcgNext s < 233280 := by
  unfold lcgNext
  exact Nat.mod_lt _ (by norm_num)

lemma lcgDraw_nonneg (s : ℕ) : 0 ≤ (lcgNext s : ℚ) / 233280 := by positivity

lemma lcgDraw_lt_one (s : ℕ) : (lcgNext s : ℚ) / 233280 < 1 := by
  rw [div_lt_one (by norm_num)]
  exact_mod_cast lcgNext_lt s

lemma alookup_getD_prop {α : Type} {P : α → Prop} (l : List (String × α)) (k : String)
    (d : α) (hd : P d) (hl : ∀ x ∈ l, P x.2) : P ((alookup l k).getD d) := by
  induction l with
  | nil => simpa [alookup] using hd
  | cons a t ih =>
    obtain ⟨ka, va⟩ := a
    by_cases hk : k = ka
    · simpa [alookup, hk] using hl (ka, va) (by simp)
    · simp only [alookup, hk, if_false]
      exact ih fun x hx => hl x (by simp [hx])

lemma getD_mem {α : Type} (l : List α) (i : ℕ) (d : α) (h : i < l.length) :
    l.getD i d ∈ l := by
  induction l generalizing i with
  | nil => simp at h
  | cons a t ih =>
    cases i with
    | zero => simp
    | succ j =>
      have := ih j (by simpa using h)
      simpa using Or.inr this

lemma natFloor_lt (d : ℚ) (n : ℕ) (h0 : 0 ≤ d) (h1 : d < 1) (hn : 0 < n) :
    natFloor (d * n) < n := by
  have hfl : (⌊d * (n : ℚ)⌋ : ℤ) < (n : ℤ) := by
    apply Int.floor_lt.mpr
    have hcast : ((n : ℤ) : ℚ) = (n : ℚ) := by push_cast; ring
    rw [hcast]
    calc d * (n : ℚ) < 1 * (n : ℚ) :=
          mul_lt_mul_of_pos_right h1 (by exact_mod_cast hn)
      _ = (n : ℚ) := one_mul _
  have hnn : (0 : ℤ) ≤ ⌊d * (n : ℚ)⌋ := Int.floor_nonneg.mpr (by positivity)
  unfold natFloor
  omega

/-! ## C10: the distributionChannelType field -/

lemma mkRecord_distributionChannelType (s0 rid y : ℕ)
    (reg c pt bm hl app : String) :
    (mkRecord s0 rid y reg c pt bm hl app).1.distributionChannelType =
      salesChannelsList.getD
        (natFloor ((lcgNext (lcgNext s0) : ℚ) / 233280 * salesChannelsList.length)) "" := rfl

lemma mkRecord_channel_mem (s0 rid y : ℕ) (reg c pt bm hl app : String) :
    (mkRecord s0 rid y reg c pt bm hl app).1.distributionChannelType ∈ salesChannelsList ∧
      (mkRecord s0 rid y reg c pt bm hl app).1.distributionChannelType ≠ "Online" := by
  rw [mkRecord_distributionChannelType]
  have hmem : salesChannelsList.getD
      (natFloor ((lcgNext (lcgNext s0) : ℚ) / 233280 * salesChannelsList.length)) "" ∈
      salesChannelsList := by
    apply getD_mem
    exact natFloor_lt _ _ (lcgDraw_nonneg _) (lcgDraw_lt_one _) (by decide)
  refine ⟨hmem, fun hEq => ?_⟩
  rw [hEq] at hmem
  exact absurd hmem (by decide)

/-- Lifts a per-record property of the loop body through the generation fold. -/
lemma genAll_forall {P : ShovelMarketData → Prop}
    (hbody : ∀ s rid y reg c pt bm hl app, 2021 ≤ y →
      P (mkRecord s rid y reg c pt bm hl app).1) :
    ∀ combos : List (ℕ × String × String × String × String × String × String),
      (∀ cb ∈ combos, 2021 ≤ cb.1) → ∀ s rid, ∀ r ∈ genAll s rid combos, P r := by
  intro combos
  induction combos with
  | nil => intro _ s rid r hr; simp [genAll] at hr
  | cons cb rest ih =>
    intro hy s rid r hr
    simp only [genAll, List.mem_cons] at hr
    rcases hr with hr | hr
    · subst hr
      exact hbody _ _ _ _ _ _ _ _ _ (hy cb (by simp))
    · exact ih (fun x hx => hy x (by simp [hx])) _ _ r hr

lemma genCombos_year_ge (cb : ℕ × String × String × String × String × String × String)
    (hcb : cb ∈ genCombos) : 2021 ≤ cb.1 := by
  have hyears : ∀ y ∈ genYears, 2021 ≤ y := by decide
  simp only [genCombos, List.mem_flatMap, List.mem_map] at hcb
  obtain ⟨y, hy, _, _, _, _, _, _, _, _, _, _, app, _, hEq⟩ := hcb
  subst hEq
  exact hyears y hy

/-- C10.  Every entry of `salesChannels` starts with `"D2C"`, `"Offline"` or
`"Others"`, so the ternary at the `distributionChannelType` assignment is the
identity on every drawn channel (its `'Online'` fallback branch is
unreachable), and the `distributionChannelType` field of every generated record
is the drawn sales-channel string verbatim — in particular never the literal
`"Online"`. -/
theorem distributionChannelType_is_drawn_channel :
    (∀ ch ∈ salesChannelsList, channelTernary ch = ch) ∧
    ∀ r ∈ generateComprehensiveData,
      r.distributionChannelType ∈ salesChannelsList ∧
        r.distributionChannelType ≠ "Online" := by
  constructor
  · decide
  · intro r hr
    exact genAll_forall
      (P := fun r => r.distributionChannelType ∈ salesChannelsList ∧
        r.distributionChannelType ≠ "Online")
      (fun s rid y reg c pt bm hl app _ => mkRecord_channel_mem s rid y reg c pt bm hl app)
      genCombos (fun cb hcb => genCombos_year_ge cb hcb) 42 100000 r hr

lemma generateComprehensiveData_ne_nil : generateComprehensiveData ≠ [] := by
  intro h
  have h0 : generateComprehensiveData.isEmpty = false := rfl
  rw [h] at h0
  simp at h0

theorem distributionChannelType_is_drawn_channel_witness :
    ∃ r ∈ generateComprehensiveData,
      r.distributionChannelType ∈ salesChannelsList ∧
        r.distributionChannelType ≠ "Online" :=
  ⟨generateComprehensiveData.head generateComprehensiveData_ne_nil,
   List.head_mem generateComprehensiveData_ne_nil,
   distributionChannelType_is_drawn_channel.2 _
     (List.head_mem generateComprehensiveData_ne_nil)⟩

/-! ## C3: revenue / marketValueUsd decomposition

`mkPriceRaw`, `mkVolRaw` and `mkNoiseRaw` re-express, as standalone
definitions, the unrounded `price`, the `volumeUnits` and the noise factor
`0.9 + seededRandom() * 0.2` computed inside the loop body; the projection
lemmas below check (by `rfl`) that they are exactly the quantities stored in
the generated record. -/

def mkBrandMult (s0 : ℕ) : ℚ :=
  (alookup brandPremiumList
    (brandsList.getD (natFloor ((lcgNext (lcgNext (lcgNext (lcgNext s0))) : ℚ) / 233280 *
      brandsList.length)) "")).getD 1

def mkChannelMult (s0 : ℕ) : ChMult :=
  (alookup distributionChannelMultipliers
    (if includesOffline
        (salesChannelsList.getD (natFloor ((lcgNext (lcgNext s0) : ℚ) / 233280 *
          salesChannelsList.length)) "")
      then "Offline" else "Online")).getD ⟨1, 1⟩

def mkPriceRaw (s0 : ℕ) (year : ℕ) (productType bladeMaterial handleLength : String) : ℚ :=
  (10 + (lcgNext (lcgNext (lcgNext (lcgNext (lcgNext (lcgNext s0))))) : ℚ) / 233280 * 90) *
    (getProductTypeMultiplier productType).price *
    ((alookup bladeMaterialMultipliers bladeMaterial).getD ⟨1, 1⟩).price *
    mkBrandMult s0 *
    (if handleLength = "Luxury" then 1.5 else if handleLength = "Premium" then 1.2 else 0.8) *
    (1 + ((year : ℚ) - 2021) * 0.02)

def mkVolRaw (s0 : ℕ) (year : ℕ) (region productType bladeMaterial application : String) : ℤ :=
  ⌊(100 + (lcgNext (lcgNext (lcgNext (lcgNext (lcgNext (lcgNext (lcgNext s0)))))) : ℚ) / 233280 * 900) *
    ((alookup regionMultipliers region).getD ⟨1, 1⟩).volume *
    (getProductTypeMultiplier productType).volume *
    ((alookup bladeMaterialMultipliers bladeMaterial).getD ⟨1, 1⟩).volume *
    ((alookup applicationMultipliers application).getD ⟨1, 1⟩).volume *
    (mkChannelMult s0).volume *
    (1 + ((year : ℚ) - 2021) * 0.05)⌋

def mkNoiseRaw (s0 : ℕ) : ℚ :=
  0.9 + (lcgNext (lcgNext (lcgNext (lcgNext (lcgNext (lcgNext (lcgNext (lcgNext s0))))))) : ℚ) /
    233280 * 0.2

lemma mkRecord_price_eq (s0 rid y : ℕ) (reg c pt bm hl app : String) :
    (mkRecord s0 rid y reg c pt bm hl app).1.price = round2 (mkPriceRaw s0 y pt bm hl) := rfl

lemma mkRecord_volumeUnits_eq (s0 rid y : ℕ) (reg c pt bm hl app : String) :
    (mkRecord s0 rid y reg c pt bm hl app).1.volumeUnits = mkVolRaw s0 y reg pt bm app := rfl

lemma mkRecord_revenue_eq (s0 rid y : ℕ) (reg c pt bm hl app : String) :
    (mkRecord s0 rid y reg c pt bm hl app).1.revenue =
      round2 (mkPriceRaw s0 y pt bm hl * (mkVolRaw s0 y reg pt bm app : ℚ)) := rfl

lemma mkRecord_marketValueUsd_eq (s0 rid y : ℕ) (reg c pt bm hl app : String) :
    (mkRecord s0 rid y reg c pt bm hl app).1.marketValueUsd =
      round2 (mkPriceRaw s0 y pt bm hl * (mkVolRaw s0 y reg pt bm app : ℚ) *
        mkNoiseRaw s0) := rfl

lemma mkPriceRaw_nonneg (s0 y : ℕ) (pt bm hl : String) (hy : 2021 ≤ y) :
    0 ≤ mkPriceRaw s0 y pt bm hl := by
  have h1 : (0 : ℚ) ≤ 10 + (lcgNext (lcgNext (lcgNext (lcgNext (lcgNext (lcgNext s0))))) : ℚ) / 233280 * 90 :=
    add_nonneg (by norm_num)
      (mul_nonneg (div_nonneg (Nat.cast_nonneg _) (by norm_num)) (by norm_num))
  have h2 : 0 < (getProductTypeMultiplier pt).price := by
    unfold getProductTypeMultiplier
    exact alookup_getD_prop (P := fun m : PTMult => 0 < m.price) _ _ _ (by norm_num)
      (by intro x hx; fin_cases hx <;> norm_num)
  have h3 : 0 < ((alookup bladeMaterialMultipliers bm).getD ⟨1, 1⟩).price :=
    alookup_getD_prop (P := fun m : BMMult => 0 < m.price) _ _ _ (by norm_num)
      (by intro x hx; fin_cases hx <;> norm_num)
  have h4 : 0 < mkBrandMult s0 := by
    apply alookup_getD_prop (P := fun q : ℚ => 0 < q) _ _ _ (by norm_num)
    intro x hx
    simp only [brandPremiumList, List.mem_map] at hx
    obtain ⟨p, _, rfl⟩ := hx
    have hc : (0 : ℚ) ≤ ((p.1 % 3 : ℕ) : ℚ) := Nat.cast_nonneg _
    nlinarith
  have h5 : (0 : ℚ) < if hl = "Luxury" then 1.5 else if hl = "Premium" then 1.2 else 0.8 := by
    split
    · norm_num
    · split <;> norm_num
  have h6 : (0 : ℚ) ≤ 1 + ((y : ℚ) - 2021) * 0.02 := by
    have : (2021 : ℚ) ≤ (y : ℚ) := by exact_mod_cast hy
    nlinarith
  unfold mkPriceRaw
  exact mul_nonneg (mul_nonneg (mul_nonneg (mul_nonneg (mul_nonneg h1 h2.le) h3.le)
    h4.le) h5.le) h6

lemma mkVolRaw_nonneg (s0 y : ℕ) (reg pt bm app : String) (hy : 2021 ≤ y) :
    0 ≤ mkVolRaw s0 y reg pt bm app := by
  have h1 : (0 : ℚ) ≤ 100 + (lcgNext (lcgNext (lcgNext (lcgNext (lcgNext (lcgNext (lcgNext s0)))))) : ℚ) / 233280 * 900 :=
    add_nonneg (by norm_num)
      (mul_nonneg (div_nonneg (Nat.cast_nonneg _) (by norm_num)) (by norm_num))
  have h2 : 0 < ((alookup regionMultipliers reg).getD ⟨1, 1⟩).volume :=
    alookup_getD_prop (P := fun m : RegMult => 0 < m.volume) _ _ _ (by norm_num)
      (by intro x hx; fin_cases hx <;> norm_num)
  have h3 : 0 < (getProductTypeMultiplier pt).volume := by
    unfold getProductTypeMultiplier
    exact alookup_getD_prop (P := fun m : PTMult => 0 < m.volume) _ _ _ (by norm_num)
      (by intro x hx; fin_cases hx <;> norm_num)
  have h4 : 0 < ((alookup bladeMaterialMultipliers bm).getD ⟨1, 1⟩).volume :=
    alookup_getD_prop (P := fun m : BMMult => 0 < m.volume) _ _ _ (by norm_num)
      (by intro x hx; fin_cases hx <;> norm_num)
  have h5 : 0 < ((alookup applicationMultipliers app).getD ⟨1, 1⟩).volume :=
    alookup_getD_prop (P := fun m : AppMult => 0 < m.volume) _ _ _ (by norm_num)
      (by intro x hx; fin_cases hx <;> norm_num)
  have h6 : 0 < (mkChannelMult s0).volume :=
    alookup_getD_prop (P := fun m : ChMult => 0 < m.volume) _ _ _ (by norm_num)
      (by intro x hx; fin_cases hx <;> norm_num)
  have h7 : (0 : ℚ) ≤ 1 + ((y : ℚ) - 2021) * 0.05 := by
    have : (2021 : ℚ) ≤ (y : ℚ) := by exact_mod_cast hy
    nlinarith
  unfold mkVolRaw
  apply Int.floor_nonneg.mpr
  exact mul_nonneg (mul_nonneg (mul_nonneg (mul_nonneg (mul_nonneg (mul_nonneg h1 h2.le)
    h3.le) h4.le) h5.le) h6.le) h7

lemma mkNoiseRaw_bounds (s0 : ℕ) : 9/10 ≤ mkNoiseRaw s0 ∧ mkNoiseRaw s0 < 11/10 := by
  unfold mkNoiseRaw
  constructor
  · have := lcgDraw_nonneg (lcgNext (lcgNext (lcgNext (lcgNext (lcgNext (lcgNext (lcgNext s0)))))))
    nlinarith
  · have := lcgDraw_lt_one (lcgNext (lcgNext (lcgNext (lcgNext (lcgNext (lcgNext (lcgNext s0)))))))
    nlinarith

lemma round2_close (x : ℚ) : |round2 x - x| ≤ 1/200 := by
  unfold round2
  rw [abs_le]
  have h1 : (⌊x * 100 + 1/2⌋ : ℚ) ≤ x * 100 + 1/2 := Int.floor_le _
  have h2 : x * 100 + 1/2 - 1 < (⌊x * 100 + 1/2⌋ : ℚ) := Int.sub_one_lt_floor _
  constructor <;> nlinarith

/-- The record-level property of C3: the stored `price`/`revenue` fields are
2-decimal roundings of a common unrounded price, `marketValueUsd` is the
rounding of the unrounded revenue times a noise factor in `[0.9, 1.1)`, and
consequently `revenue` matches `price × volumeUnits` and `marketValueUsd`
matches `revenue` within 10 %, both up to the 2-decimal rounding slack. -/
def recordPriceSpec (r : ShovelMarketData) : Prop :=
  0 ≤ r.volumeUnits ∧
  ∃ p n : ℚ, 0 ≤ p ∧ r.price = round2 p ∧
    r.revenue = round2 (p * (r.volumeUnits : ℚ)) ∧
    9/10 ≤ n ∧ n < 11/10 ∧
    r.marketValueUsd = round2 (p * (r.volumeUnits : ℚ) * n) ∧
    |r.revenue - r.price * (r.volumeUnits : ℚ)| ≤ (1 + (r.volumeUnits : ℚ)) / 200 ∧
    |r.marketValueUsd - r.revenue| ≤ r.revenue / 10 + 1/50

lemma round2_bounds_of_decomp (p n : ℚ) (v : ℤ) (hp : 0 ≤ p) (hv : 0 ≤ v)
    (hn1 : 9/10 ≤ n) (hn2 : n ≤ 11/10) :
    |round2 (p * (v : ℚ)) - round2 p * (v : ℚ)| ≤ (1 + (v : ℚ)) / 200 ∧
    |round2 (p * (v : ℚ) * n) - round2 (p * (v : ℚ))| ≤ round2 (p * (v : ℚ)) / 10 + 1/50 := by
  have hvq : (0 : ℚ) ≤ (v : ℚ) := by exact_mod_cast hv
  have hR : (0 : ℚ) ≤ p * (v : ℚ) := mul_nonneg hp hvq
  have c1 := round2_close (p * (v : ℚ))
  have c2 := round2_close p
  have c3 := round2_close (p * (v : ℚ) * n)
  constructor
  · have step : |round2 (p * (v : ℚ)) - round2 p * (v : ℚ)| ≤
        |round2 (p * (v : ℚ)) - p * (v : ℚ)| + |p * (v : ℚ) - round2 p * (v : ℚ)| := by
      calc |round2 (p * (v : ℚ)) - round2 p * (v : ℚ)|
          = |(round2 (p * (v : ℚ)) - p * (v : ℚ)) + (p * (v : ℚ) - round2 p * (v : ℚ))| := by
            ring_nf
        _ ≤ _ := abs_add _ _
    have h2 : |p * (v : ℚ) - round2 p * (v : ℚ)| = |p - round2 p| * (v : ℚ) := by
      rw [← sub_mul, abs_mul, abs_of_nonneg hvq]
    have h3 : |p - round2 p| ≤ 1/200 := by
      rw [abs_sub_comm]; exact c2
    have h4 : |p - round2 p| * (v : ℚ) ≤ 1/200 * (v : ℚ) :=
      mul_le_mul_of_nonneg_right h3 hvq
    calc |round2 (p * (v : ℚ)) - round2 p * (v : ℚ)|
        ≤ |round2 (p * (v : ℚ)) - p * (v : ℚ)| + |p * (v : ℚ) - round2 p * (v : ℚ)| := step
      _ ≤ 1/200 + 1/200 * (v : ℚ) := by rw [h2]; exact add_le_add c1 h4
      _ = (1 + (v : ℚ)) / 200 := by ring
  · set R := p * (v : ℚ) with hRdef
    have hmid : |R * n - R| ≤ R / 10 := by
      have : R * n - R = R * (n - 1) := by ring
      rw [this, abs_mul, abs_of_nonneg hR]
      have habs : |n - 1| ≤ 1/10 := by
        rw [abs_le]; constructor <;> nlinarith
      nlinarith
    have hRle : R ≤ round2 R + 1/200 := by
      have := round2_close R
      rw [abs_le] at this
      nlinarith [this.1]
    have step : |round2 (R * n) - round2 R| ≤
        |round2 (R * n) - R * n| + |R * n - R| + |R - round2 R| := by
      calc |round2 (R * n) - round2 R|
          = |(round2 (R * n) - R * n) + ((R * n - R) + (R - round2 R))| := by ring_nf
        _ ≤ |round2 (R * n) - R * n| + |(R * n - R) + (R - round2 R)| := abs_add _ _
        _ ≤ |round2 (R * n) - R * n| + (|R * n - R| + |R - round2 R|) :=
            add_le_add_left (abs_add _ _) _
        _ = _ := by ring
    have hlast : |R - round2 R| ≤ 1/200 := by
      rw [abs_sub_comm]; exact round2_close R
    calc |round2 (R * n) - round2 R|
        ≤ |round2 (R * n) - R * n| + |R * n - R| + |R - round2 R| := step
      _ ≤ 1/200 + R / 10 + 1/200 := add_le_add (add_le_add c3 hmid) hlast
      _ ≤ 1/200 + (round2 R + 1/200) / 10 + 1/200 := by nlinarith
      _ ≤ round2 R / 10 + 1/50 := by nlinarith

lemma mkRecord_priceSpec (s0 rid y : ℕ) (reg c pt bm hl app : String) (hy : 2021 ≤ y) :
    recordPriceSpec (mkRecord s0 rid y reg c pt bm hl app).1 := by
  have hv := mkVolRaw_nonneg s0 y reg pt bm app hy
  have hp := mkPriceRaw_nonneg s0 y pt bm hl hy
  obtain ⟨hn1, hn2⟩ := mkNoiseRaw_bounds s0
  have hb := round2_bounds_of_decomp (mkPriceRaw s0 y pt bm hl) (mkNoiseRaw s0)
    (mkVolRaw s0 y reg pt bm app) hp hv hn1 (le_of_lt hn2)
  refine ⟨?_, mkPriceRaw s0 y pt bm hl, mkNoiseRaw s0, hp, ?_, ?_, hn1, hn2, ?_, ?_, ?_⟩
  · rw [mkRecord_volumeUnits_eq]; exact hv
  · exact mkRecord_price_eq s0 rid y reg c pt bm hl app
  · rw [mkRecord_revenue_eq, mkRecord_volumeUnits_eq]
  · rw [mkRecord_marketValueUsd_eq, mkRecord_volumeUnits_eq]
  · rw [mkRecord_revenue_eq, mkRecord_price_eq, mkRecord_volumeUnits_eq]
    exact hb.1
  · rw [mkRecord_marketValueUsd_eq, mkRecord_revenue_eq]
    exact hb.2

/-- C3.  For every generated record, the stored `revenue` is the rounding of
the unrounded price times `volumeUnits` (so it matches `price × volumeUnits`
within rounding), and the stored `marketValueUsd` is the rounding of that
revenue times a noise factor in `[0.9, 1.1)`, hence lies within 10 % of the
stored `revenue` up to the 2-decimal rounding slack. -/
theorem generated_record_revenue_marketValue :
    ∀ r ∈ generateComprehensiveData, recordPriceSpec r := by
  intro r hr
  exact genAll_forall (P := recordPriceSpec)
    (fun s rid y reg c pt bm hl app hy => mkRecord_priceSpec s rid y reg c pt bm hl app hy)
    genCombos (fun cb hcb => genCombos_year_ge cb hcb) 42 100000 r hr

theorem generated_record_revenue_marketValue_witness :
    ∃ r ∈ generateComprehensiveData, recordPriceSpec r :=
  ⟨generateComprehensiveData.head generateComprehensiveData_ne_nil,
   List.head_mem generateComprehensiveData_ne_nil,
   generated_record_revenue_marketValue _
     (List.head_mem generateComprehensiveData_ne_nil)⟩

/-! ## C8: the CAGR guard

`Math.pow` on real exponents forces `ℝ` here.  The parallel arrays
`entityData.values` / `entityData.years` of the bubble-chart path are modelled
as a single list of (value, year) pairs; `yearDataMap.get(y) || 0` of the
YoY/CAGR path is modelled as a total function `ℤ → ℝ` giving the looked-up
sum-or-0. -/

/-- `entityData.values.find((_, i) => entityData.years[i] === 2025) || 0`. -/
noncomputable def bubbleStartValue (entityData : List (ℝ × ℤ)) : ℝ :=
  ((entityData.find? (fun p => decide (p.2 = 2025))).map Prod.fst).getD 0

/-- `entityData.values.find((_, i) => entityData.years[i] === 2032) || 0`. -/
noncomputable def bubbleEndValue (entityData : List (ℝ × ℤ)) : ℝ :=
  ((entityData.find? (fun p => decide (p.2 = 2032))).map Prod.fst).getD 0

/-- The CAGR block of `bubbleChartData`: guard `startValue > 0 && endValue > 0`
with the fixed span `2032 - 2025`. -/
noncomputable def bubbleEntityCagr (entityData : List (ℝ × ℤ)) : ℝ :=
  let startValue := bubbleStartValue entityData
  let endValue := bubbleEndValue entityData
  if 0 < startValue ∧ 0 < endValue then
    let years : ℤ := 2032 - 2025
    ((endValue / startValue) ^ ((1 : ℝ) / (years : ℝ)) - 1) * 100
  else 0

/-- The CAGR block of `yoyCagrDataByEntity`: `cagr` stays 0 unless
`index > 0`, both endpoint values are positive and the year span is
positive. -/
noncomputable def yoySiteCagr (yearValue : ℤ → ℝ) (years : List ℤ) (index : ℕ)
    (year : ℤ) : ℝ :=
  if 0 < index then
    let firstYear := years.headD 0
    let firstValue := yearValue firstYear
    let currentValue := yearValue year
    if 0 < firstValue ∧ 0 < currentValue then
      let yearsDiff := year - firstYear
      if 0 < yearsDiff then
        ((currentValue / firstValue) ^ ((1 : ℝ) / (yearsDiff : ℝ)) - 1) * 100
      else 0
    else 0
  else 0

/-- Modelled from the spec: `(endValue/startValue)^(1/yearSpan) − 1` (as a
percentage), computed only when both endpoints are positive and the span is
positive, otherwise 0. -/
noncomputable def specCAGR (startValue endValue : ℝ) (yearSpan : ℤ) : ℝ :=
  if 0 < startValue ∧ 0 < endValue ∧ 0 < yearSpan then
    ((endValue / startValue) ^ ((1 : ℝ) / (yearSpan : ℝ)) - 1) * 100
  else 0

lemma getD_zero_eq_headD (years : List ℤ) : years.getD 0 0 = years.headD 0 := by
  cases years <;> rfl

lemma ite_and_nest {α : Type} (a b c : Prop) [Decidable a] [Decidable b] [Decidable c]
    (x d : α) :
    (if a ∧ b then (if c then x else d) else d) = (if a ∧ b ∧ c then x else d) := by
  split_ifs <;> first | rfl | tauto

/-- C8.  Both CAGR sites compute exactly the guarded formula: the power
expression is evaluated only when both endpoints are strictly positive and the
year span is positive, and the result is 0 in every other case — in particular
0 whenever either endpoint is 0 (and, the model being real-valued and total,
no NaN/Infinity arises). -/
theorem cagr_guarded_formula :
    (∀ entityData : List (ℝ × ℤ),
      bubbleEntityCagr entityData =
        specCAGR (bubbleStartValue entityData) (bubbleEndValue entityData)
          (2032 - 2025)) ∧
    (∀ (yearValue : ℤ → ℝ) (years : List ℤ) (index : ℕ),
      yoySiteCagr yearValue years index (years.getD index 0) =
        specCAGR (yearValue (years.headD 0)) (yearValue (years.getD index 0))
          (years.getD index 0 - years.headD 0)) ∧
    (∀ (x : ℝ) (n : ℤ), specCAGR 0 x n = 0 ∧ specCAGR x 0 n = 0) := by
  refine ⟨fun entityData => ?_, fun yearValue years index => ?_, fun x n => ?_⟩
  · unfold bubbleEntityCagr specCAGR
    by_cases hs : 0 < bubbleStartValue entityData <;>
      by_cases he : 0 < bubbleEndValue entityData <;>
      simp [hs, he]
  · unfold yoySiteCagr specCAGR
    cases index with
    | zero =>
      rw [getD_zero_eq_headD]
      simp
    | succ k =>
      rw [if_pos (Nat.succ_pos k)]
      exact ite_and_nest _ _ _ _ _
  · constructor <;> simp [specCAGR]

/-! ## C4: the waterfall (incremental opportunity) series -/

/-- Per-year total `yearData.reduce((sum, d) => sum + (d.marketValueUsd || 0) / 1000, 0)`. -/
def wfYearTotal (records : List ShovelMarketData) (y : ℕ) : ℚ :=
  ((records.filter (fun d => d.year = y)).map (fun d => d.marketValueUsd / 1000)).sum

/-- `baseValue`: the 2024 total, with the `|| 57159` fallback when that total
is 0. -/
def wfBaseValue (records : List ShovelMarketData) : ℚ :=
  let s := wfYearTotal records 2024
  if s = 0 then 57159 else s

/-- The hard-coded default increment table. -/
def defaultIncrements : List ℚ :=
  [2638.4, 2850.4, 3055.6, 3231.0, 3432.9, 3674.2, 3885.1]

/-- The waterfall horizon years of the `for` loop, 2025 through 2031. -/
def wfHorizon : List ℕ := (List.range 7).map (fun k => 2025 + k)

/-- One loop iteration: the real year-over-year difference when both totals
are positive, otherwise the scaled default increment. -/
def wfIncrement (records : List ShovelMarketData) (year : ℕ) : ℚ :=
  let yearValue := wfYearTotal records year
  let prevYearValue := wfYearTotal records (year - 1)
  if 0 < yearValue ∧ 0 < prevYearValue then yearValue - prevYearValue
  else defaultIncrements.getD (year - 2025) 0 * (wfBaseValue records / 57159)

/-- `incrementalValues`: the `{ year: String(year), value }` pairs. -/
def incrementalValues (records : List ShovelMarketData) : List (String × ℚ) :=
  wfHorizon.map (fun year => (toString year, wfIncrement records year))

/-- One element of the waterfall `chartData` array (absent JS object fields are
`none` / `false`). -/
structure WaterfallEntry where
  year : String
  baseValue : Option ℚ := none
  incrementalValue : Option ℚ := none
  totalValue : ℚ
  isBase : Bool := false
  isTotal : Bool := false
  deriving DecidableEq

/-- The running-total `map` over the incremental values, threading
`cumulative`; returns the middle entries and the final cumulative value. -/
def wfCumul (c : ℚ) : List (String × ℚ) → List WaterfallEntry × ℚ
  | [] => ([], c)
  | (y, v) :: rest =>
    let c2 := c + v
    let r := wfCumul c2 rest
    ({ year := y, incrementalValue := some v, totalValue := c2 } :: r.1, r.2)

/-- `waterfallData`: the chart series (base entry, running increments, total
entry) together with `incrementalOpportunity`, the sum of the increments. -/
def waterfallData (records : List ShovelMarketData) : List WaterfallEntry × ℚ :=
  let baseValue := wfBaseValue records
  let iv := incrementalValues records
  let mid := wfCumul baseValue iv
  ({ year := "2024", baseValue := some baseValue, totalValue := baseValue, isBase := true } ::
      mid.1 ++
      [{ year := "2032", baseValue := some mid.2, totalValue := mid.2, isTotal := true }],
    (iv.map (fun p => p.2)).sum)

lemma wfCumul_snd (l : List (String × ℚ)) : ∀ c, (wfCumul c l).2 = c + (l.map (fun p => p.2)).sum := by
  induction l with
  | nil => intro c; simp [wfCumul]
  | cons p rest ih =>
    intro c
    obtain ⟨y, v⟩ := p
    simp only [wfCumul, List.map_cons, List.sum_cons]
    rw [ih (c + v)]
    ring

lemma wfYearTotal_eq_zero (records : List ShovelMarketData)
    (h2024 : ∀ r ∈ records, r.year = 2024) (y : ℕ) (hy : y ≠ 2024) :
    wfYearTotal records y = 0 := by
  unfold wfYearTotal
  have hnil : records.filter (fun d => decide (d.year = y)) = [] := by
    rw [List.filter_eq_nil_iff]
    intro a ha
    simp [h2024 a ha, Ne.symm hy]
  rw [hnil]
  rfl

/-- C4.  The waterfall fallback: for each horizon year whose own or previous
total is not strictly positive, the increment is the default-table entry
scaled by `baseValue / 57159`; with a record set holding only 2024 records the
whole increment list is the scaled default table; and the series starts with
the `isBase` 2024 entry and ends with the `isTotal` 2032 entry whose value is
the base plus the sum of all increments. -/
theorem waterfall_fallback_spec (records : List ShovelMarketData) :
    (∀ year ∈ wfHorizon,
      ¬(0 < wfYearTotal records year ∧ 0 < wfYearTotal records (year - 1)) →
      wfIncrement records year =
        defaultIncrements.getD (year - 2025) 0 * (wfBaseValue records / 57159)) ∧
    ((∀ r ∈ records, r.year = 2024) →
      (incrementalValues records).map (fun p => p.2) =
        defaultIncrements.map (fun v => v * (wfBaseValue records / 57159))) ∧
    (waterfallData records).1.head? =
      some { year := "2024", baseValue := some (wfBaseValue records),
             totalValue := wfBaseValue records, isBase := true } ∧
    (waterfallData records).1.getLast? =
      some { year := "2032",
             baseValue := some (wfBaseValue records +
               ((incrementalValues records).map (fun p => p.2)).sum),
             totalValue := wfBaseValue records +
               ((incrementalValues records).map (fun p => p.2)).sum,
             isTotal := true } := by
  refine ⟨?_, ?_, ?_, ?_⟩
  · intro year _ hguard
    unfold wfIncrement
    rw [if_neg hguard]
  · intro h2024
    have h2025 := wfYearTotal_eq_zero records h2024 2025 (by norm_num)
    have h2026 := wfYearTotal_eq_zero records h2024 2026 (by norm_num)
    have h2027 := wfYearTotal_eq_zero records h2024 2027 (by norm_num)
    have h2028 := wfYearTotal_eq_zero records h2024 2028 (by norm_num)
    have h2029 := wfYearTotal_eq_zero records h2024 2029 (by norm_num)
    have h2030 := wfYearTotal_eq_zero records h2024 2030 (by norm_num)
    have h2031 := wfYearTotal_eq_zero records h2024 2031 (by norm_num)
    have hH : wfHorizon = [2025, 2026, 2027, 2028, 2029, 2030, 2031] := rfl
    simp only [incrementalValues, hH, List.map_cons, List.map_nil, defaultIncrements]
    simp [wfIncrement, h2025, h2026, h2027, h2028, h2029, h2030, h2031,
      defaultIncrements]
  · rfl
  · have hcons : (waterfallData records).1 =
        ({ year := "2024", baseValue := some (wfBaseValue records),
           totalValue := wfBaseValue records, isBase := true } ::
          (wfCumul (wfBaseValue records) (incrementalValues records)).1) ++
          [{ year := "2032",
             baseValue := some (wfCumul (wfBaseValue records) (incrementalValues records)).2,
             totalValue := (wfCumul (wfBaseValue records) (incrementalValues records)).2,
             isTotal := true }] := by
      simp [waterfallData]
    rw [hcons, List.getLast?_concat, wfCumul_snd]

/-- A single 2024 record whose market value makes the computed base exactly
57159 (scale factor 1). -/
def wfTestRecords : List ShovelMarketData :=
  [{ (default : ShovelMarketData) with year := 2024, marketValueUsd := 57159000 }]

theorem waterfall_fallback_spec_witness :
    wfIncrement wfTestRecords 2025 =
      defaultIncrements.getD 0 0 * (wfBaseValue wfTestRecords / 57159) ∧
    (incrementalValues wfTestRecords).map (fun p => p.2) =
      defaultIncrements.map (fun v => v * (wfBaseValue wfTestRecords / 57159)) := by
  constructor
  · exact (waterfall_fallback_spec wfTestRecords).1 2025 (by decide) (by decide)
  · refine (waterfall_fallback_spec wfTestRecords).2.1 (fun r hr => ?_)
    fin_cases hr
    rfl

/-! ## C7: per-year segment aggregation

The market-evaluation toggle and `getDataValue`. -/

/-! ## A reducible model of `Array.prototype.sort()`

`sortByB` is a stable insertion sort on a Boolean comparison; for the
duplicate-free string/number lists sorted here it produces exactly the sorted
sequence JS `.sort()` returns.  `strLeb` compares strings by character code,
the JS default comparison. -/

def orderedInsertB {α : Type} (le : α → α → Bool) (a : α) : List α → List α
  | [] => [a]
  | b :: t => if le a b then a :: b :: t else b :: orderedInsertB le a t

def sortByB {α : Type} (le : α → α → Bool) (l : List α) : List α :=
  l.foldr (orderedInsertB le) []

lemma orderedInsertB_perm {α : Type} (le : α → α → Bool) (a : α) (l : List α) :
    (orderedInsertB le a l).Perm (a :: l) := by
  induction l with
  | nil => simp [orderedInsertB]
  | cons b t ih =>
    rw [orderedInsertB]
    by_cases h : le a b
    · rw [if_pos h]
    · rw [if_neg h]
      exact (ih.cons b).trans (List.Perm.swap a b t)

lemma sortByB_perm {α : Type} (le : α → α → Bool) (l : List α) :
    (sortByB le l).Perm l := by
  induction l with
  | nil => simp [sortByB]
  | cons a t ih =>
    rw [sortByB, List.foldr_cons]
    exact (orderedInsertB_perm le a _).trans (ih.cons a)

lemma mem_sortByB {α : Type} (le : α → α → Bool) {l : List α} {a : α} :
    a ∈ sortByB le l ↔ a ∈ l :=
  (sortByB_perm le l).mem_iff

/-- Character-code comparison of two strings (the JS default sort order). -/
def charsLeb : List Char → List Char → Bool
  | [], _ => true
  | _ :: _, [] => false
  | a :: as, b :: bs =>
    if a.toNat < b.toNat then true
    else if b.toNat < a.toNat then false
    else charsLeb as bs

def strLeb (a b : String) : Bool := charsLeb a.toList b.toList

def sortStrings (l : List String) : List String := sortByB strLeb l

def sortNats (l : List ℕ) : List ℕ := sortByB (fun a b => decide (a ≤ b)) l

lemma mem_sortStrings {l : List String} {a : String} : a ∈ sortStrings l ↔ a ∈ l :=
  mem_sortByB strLeb

lemma sortStrings_perm (l : List String) : (sortStrings l).Perm l := sortByB_perm _ l

lemma mem_sortNats {l : List ℕ} {a : ℕ} : a ∈ sortNats l ↔ a ∈ l :=
  mem_sortByB _

inductive MarketEvaluation
  | byValue
  | byVolume
  deriving DecidableEq

/-- `getDataValue`: volume units under `'By Volume'`, `marketValueUsd / 1000`
otherwise. -/
def getDataValue (mode : MarketEvaluation) (d : ShovelMarketData) : ℚ :=
  match mode with
  | MarketEvaluation.byVolume => (d.volumeUnits : ℚ)
  | MarketEvaluation.byValue => d.marketValueUsd / 1000

/-- `Map.set(key, (map.get(key) || 0) + v)` on an insertion-ordered map. -/
def bump {κ : Type} [DecidableEq κ] : List (κ × ℚ) → κ → ℚ → List (κ × ℚ)
  | [], k, v => [(k, v)]
  | (a, w) :: t, k, v =>
    if a = k then (a, w + v) :: t else (a, w) :: bump t k v

/-- `map.get(key) || 0`: the first entry with the given key, defaulting to 0. -/
def lookupQ {κ : Type} [DecidableEq κ] : List (κ × ℚ) → κ → ℚ
  | [], _ => 0
  | (a, w) :: t, k => if a = k then w else lookupQ t k

/-- The distinct sorted year axis `[...new Set(filteredData.map(d => d.year))].sort()`. -/
def sortedYears (data : List ShovelMarketData) : List ℕ :=
  sortNats ((data.map (fun d => d.year)).dedup)

/-- The segment axis: the caller-selected values when present (non-empty
strings, sorted), otherwise the distinct non-empty values observed in the
data, sorted. -/
def segmentAxis (data : List ShovelMarketData) (getSeg : ShovelMarketData → String)
    (selected : Option (List String)) : List String :=
  let segmentsFromData :=
    sortStrings (((data.map getSeg).dedup).filter (fun s => s ≠ ""))
  match selected with
  | some sel =>
    if 0 < sel.length then sortStrings (sel.filter (fun s => s ≠ ""))
    else segmentsFromData
  | none => segmentsFromData

/-- One output row: the year label and the per-segment cells, in segment-axis
order. -/
structure ChartRow where
  year : String
  cells : List (String × ℚ)
  deriving DecidableEq

/-- `generateSegmentChartData`: accumulate `(year, segment) → sum` over the
records (the template-literal composite key is modelled as the pair), then
emit one row per year with every axis segment present, defaulting to 0. -/
def generateSegmentChartData (data : List ShovelMarketData) (mode : MarketEvaluation)
    (getSeg : ShovelMarketData → String) (selected : Option (List String)) :
    List ChartRow × List String :=
  let segments := segmentAxis data getSeg selected
  let segmentMap :=
    data.foldl (fun m d => bump m (d.year, getSeg d) (getDataValue mode d)) []
  let chartData := (sortedYears data).map (fun y =>
    { year := toString y,
      cells := segments.map (fun s => (s, lookupQ segmentMap (y, s))) })
  (chartData, segments)

/-- `generateYearWiseStackedBarData`: same accumulation but skipping records
with an empty segment value, and the returned segment list keeps only segments
with a positive value in some year. -/
def generateYearWiseStackedBarData (data : List ShovelMarketData)
    (mode : MarketEvaluation) (getSeg : ShovelMarketData → String)
    (selected : Option (List String)) : List ChartRow × List String :=
  let segments := segmentAxis data getSeg selected
  let yearSegmentMap :=
    data.foldl (fun m d =>
      if getSeg d ≠ "" then bump m (d.year, getSeg d) (getDataValue mode d) else m) []
  let chartData := (sortedYears data).map (fun y =>
    { year := toString y,
      cells := segments.map (fun s => (s, lookupQ yearSegmentMap (y, s))) })
  let activeSegments := segments.filter (fun s =>
    chartData.any (fun row => 0 < lookupQ row.cells s))
  (chartData, activeSegments)

/-- The `(year, segment)` sum the claim talks about. -/
def segmentTotal (data : List ShovelMarketData) (mode : MarketEvaluation)
    (getSeg : ShovelMarketData → String) (y : ℕ) (s : String) : ℚ :=
  ((data.filter (fun d => d.year = y ∧ getSeg d = s)).map (getDataValue mode)).sum

lemma lookupQ_bump_same {κ : Type} [DecidableEq κ] (m : List (κ × ℚ)) (k : κ) (v : ℚ) :
    lookupQ (bump m k v) k = lookupQ m k + v := by
  induction m with
  | nil => simp [bump, lookupQ]
  | cons p t ih =>
    obtain ⟨a, w⟩ := p
    by_cases hak : a = k
    · subst hak
      simp [bump, lookupQ]
    · simp [bump, lookupQ, hak, ih]

lemma lookupQ_bump_other {κ : Type} [DecidableEq κ] (m : List (κ × ℚ)) (k k2 : κ) (v : ℚ)
    (hk : k2 ≠ k) : lookupQ (bump m k v) k2 = lookupQ m k2 := by
  have hk2 : k ≠ k2 := Ne.symm hk
  induction m with
  | nil => simp [bump, lookupQ, hk2]
  | cons p t ih =>
    obtain ⟨a, w⟩ := p
    by_cases hak : a = k
    · subst hak
      simp [bump, lookupQ, hk2]
    · by_cases hak2 : a = k2
      · subst hak2
        simp [bump, lookupQ, hak]
      · simp [bump, lookupQ, hak, hak2, ih]

/-- The accumulated map agrees with the filtered sum, for an arbitrary guard on
the records that contribute. -/
lemma lookupQ_foldl_bump {κ : Type} [DecidableEq κ]
    (key : ShovelMarketData → κ) (val : ShovelMarketData → ℚ)
    (guard : ShovelMarketData → Bool) (data : List ShovelMarketData) (k : κ) :
    ∀ m : List (κ × ℚ),
      lookupQ (data.foldl (fun m d => if guard d then bump m (key d) (val d) else m) m) k =
        lookupQ m k + ((data.filter (fun d => guard d ∧ key d = k)).map val).sum := by
  induction data with
  | nil => intro m; simp
  | cons d t ih =>
    intro m
    by_cases hg : guard d
    · by_cases hkd : key d = k
      · simp only [List.foldl_cons, if_pos hg]
        rw [ih (bump m (key d) (val d))]
        subst hkd
        rw [lookupQ_bump_same]
        have : (List.filter (fun d2 => decide (guard d2 = true ∧ key d2 = key d)) (d :: t)) =
            d :: List.filter (fun d2 => decide (guard d2 = true ∧ key d2 = key d)) t := by
          rw [List.filter_cons_of_pos]
          simp [hg]
        rw [this]
        simp only [List.map_cons, List.sum_cons]
        ring
      · simp only [List.foldl_cons, if_pos hg]
        rw [ih (bump m (key d) (val d))]
        rw [lookupQ_bump_other _ _ _ _ (fun h => hkd h.symm)]
        have : (List.filter (fun d2 => decide (guard d2 = true ∧ key d2 = k)) (d :: t)) =
            List.filter (fun d2 => decide (guard d2 = true ∧ key d2 = k)) t := by
          rw [List.filter_cons_of_neg]
          simp [hkd]
        rw [this]
    · simp only [List.foldl_cons, if_neg hg]
      rw [ih m]
      have : (List.filter (fun d2 => decide (guard d2 = true ∧ key d2 = k)) (d :: t)) =
          List.filter (fun d2 => decide (guard d2 = true ∧ key d2 = k)) t := by
        rw [List.filter_cons_of_neg]
        simp [hg]
      rw [this]

lemma lookupQ_map_self (l : List String) (f : String → ℚ) (s : String) (hs : s ∈ l) :
    lookupQ (l.map (fun x => (x, f x))) s = f s := by
  induction l with
  | nil => simp at hs
  | cons a t ih =>
    by_cases has : a = s
    · subst has
      simp [lookupQ]
    · have hst : s ∈ t := by
        rcases List.mem_cons.mp hs with h | h
        · exact absurd h.symm has
        · exact h
      simp [lookupQ, has, ih hst]

lemma segmentAxis_ne_empty (data : List ShovelMarketData)
    (getSeg : ShovelMarketData → String) (selected : Option (List String)) :
    ∀ s ∈ segmentAxis data getSeg selected, s ≠ "" := by
  intro s hs
  rcases selected with _ | sel
  · simp only [segmentAxis] at hs
    rw [mem_sortStrings] at hs
    exact of_decide_eq_true (List.mem_filter.mp hs).2
  · simp only [segmentAxis] at hs
    split at hs <;>
    · rw [mem_sortStrings] at hs
      exact of_decide_eq_true (List.mem_filter.mp hs).2

lemma grouped_map_lookup (data : List ShovelMarketData) (mode : MarketEvaluation)
    (getSeg : ShovelMarketData → String) (y : ℕ) (s : String) :
    lookupQ (data.foldl (fun m d => bump m (d.year, getSeg d) (getDataValue mode d)) [])
        (y, s) = segmentTotal data mode getSeg y s := by
  have hfun : (fun (m : List ((ℕ × String) × ℚ)) (d : ShovelMarketData) =>
      bump m (d.year, getSeg d) (getDataValue mode d)) =
      (fun m d => if (fun _ : ShovelMarketData => true) d then
        bump m (d.year, getSeg d) (getDataValue mode d) else m) := by
    funext m d; simp
  rw [hfun,
    lookupQ_foldl_bump (fun d => (d.year, getSeg d)) (getDataValue mode)
      (fun _ => true) data (y, s) []]
  have hfil : data.filter
      (fun d => decide ((fun _ : ShovelMarketData => true) d = true ∧
        (d.year, getSeg d) = (y, s))) =
      data.filter (fun d => decide (d.year = y ∧ getSeg d = s)) :=
    List.filter_congr (by intro d _; simp [Prod.ext_iff])
  rw [lookupQ, zero_add, hfil, segmentTotal]

lemma stacked_map_lookup (data : List ShovelMarketData) (mode : MarketEvaluation)
    (getSeg : ShovelMarketData → String) (y : ℕ) (s : String) (hs : s ≠ "") :
    lookupQ (data.foldl (fun m d =>
        if getSeg d ≠ "" then bump m (d.year, getSeg d) (getDataValue mode d) else m) [])
        (y, s) = segmentTotal data mode getSeg y s := by
  have hfun : (fun (m : List ((ℕ × String) × ℚ)) (d : ShovelMarketData) =>
      if getSeg d ≠ "" then bump m (d.year, getSeg d) (getDataValue mode d) else m) =
      (fun m d => if (fun d2 : ShovelMarketData => decide (getSeg d2 ≠ "")) d = true then
        bump m (d.year, getSeg d) (getDataValue mode d) else m) := by
    funext m d; simp
  rw [hfun,
    lookupQ_foldl_bump (fun d => (d.year, getSeg d)) (getDataValue mode)
      (fun d2 => decide (getSeg d2 ≠ "")) data (y, s) []]
  have hfil : data.filter
      (fun d => decide ((fun d2 : ShovelMarketData => decide (getSeg d2 ≠ "")) d = true ∧
        (d.year, getSeg d) = (y, s))) =
      data.filter (fun d => decide (d.year = y ∧ getSeg d = s)) := by
    refine List.filter_congr ?_
    intro d _
    by_cases h1 : d.year = y <;> by_cases h2 : getSeg d = s <;>
      simp [h1, h2, Prod.ext_iff]
    intro h
    exact hs (h2 ▸ h)
  rw [lookupQ, zero_add, hfil, segmentTotal]

lemma grouped_rows_eq (data : List ShovelMarketData) (mode : MarketEvaluation)
    (getSeg : ShovelMarketData → String) (selected : Option (List String)) :
    (generateSegmentChartData data mode getSeg selected).1 =
      (sortedYears data).map (fun y =>
        { year := toString y,
          cells := (segmentAxis data getSeg selected).map (fun s =>
            (s, segmentTotal data mode getSeg y s)) }) := by
  unfold generateSegmentChartData
  refine List.map_congr_left ?_
  intro y _
  refine congrArg (fun cs => ChartRow.mk (toString y) cs) ?_
  refine List.map_congr_left ?_
  intro s _
  rw [grouped_map_lookup]

lemma stacked_rows_eq (data : List ShovelMarketData) (mode : MarketEvaluation)
    (getSeg : ShovelMarketData → String) (selected : Option (List String)) :
    (generateYearWiseStackedBarData data mode getSeg selected).1 =
      (sortedYears data).map (fun y =>
        { year := toString y,
          cells := (segmentAxis data getSeg selected).map (fun s =>
            (s, segmentTotal data mode getSeg y s)) }) := by
  unfold generateYearWiseStackedBarData
  refine List.map_congr_left ?_
  intro y _
  refine congrArg (fun cs => ChartRow.mk (toString y) cs) ?_
  refine List.map_congr_left ?_
  intro s hsmem
  rw [stacked_map_lookup _ _ _ _ _ (segmentAxis_ne_empty data getSeg selected s hsmem)]

/-- C7.  Aggregation completeness: every row of both per-year aggregators
carries exactly the segment axis as its keys, each cell holding the
`(year, segment)` sum over the records (so a combination absent from the data
yields the key with value 0, never a missing key), and the stacked variant
returns exactly those axis segments with a positive value in at least one
year. -/
theorem aggregation_completeness (data : List ShovelMarketData)
    (mode : MarketEvaluation) (getSeg : ShovelMarketData → String)
    (selected : Option (List String)) :
    ((generateSegmentChartData data mode getSeg selected).1 =
      (sortedYears data).map (fun y =>
        { year := toString y,
          cells := (segmentAxis data getSeg selected).map (fun s =>
            (s, segmentTotal data mode getSeg y s)) }) ∧
      (generateSegmentChartData data mode getSeg selected).2 =
        segmentAxis data getSeg selected) ∧
    (∀ row ∈ (generateSegmentChartData data mode getSeg selected).1,
      row.cells.map (fun c => c.1) = segmentAxis data getSeg selected) ∧
    (∀ y s, (∀ r ∈ data, ¬(r.year = y ∧ getSeg r = s)) →
      segmentTotal data mode getSeg y s = 0) ∧
    (generateYearWiseStackedBarData data mode getSeg selected).1 =
      (sortedYears data).map (fun y =>
        { year := toString y,
          cells := (segmentAxis data getSeg selected).map (fun s =>
            (s, segmentTotal data mode getSeg y s)) }) ∧
    (∀ s, s ∈ (generateYearWiseStackedBarData data mode getSeg selected).2 ↔
      s ∈ segmentAxis data getSeg selected ∧
        ∃ y ∈ sortedYears data, 0 < segmentTotal data mode getSeg y s) := by
  refine ⟨⟨grouped_rows_eq data mode getSeg selected, rfl⟩, ?_, ?_, stacked_rows_eq data mode getSeg selected, ?_⟩
  · intro row hrow
    rw [grouped_rows_eq] at hrow
    obtain ⟨y, _, rfl⟩ := List.mem_map.mp hrow
    simp only [List.map_map]
    rw [show ((fun c : String × ℚ => c.1) ∘
        fun s => (s, segmentTotal data mode getSeg y s)) = id from rfl, List.map_id]
  · intro y s hnone
    unfold segmentTotal
    have : data.filter (fun d => decide (d.year = y ∧ getSeg d = s)) = [] := by
      rw [List.filter_eq_nil_iff]
      intro a ha
      simpa using hnone a ha
    rw [this]
    rfl
  · intro s
    have hact : (generateYearWiseStackedBarData data mode getSeg selected).2 =
        (segmentAxis data getSeg selected).filter (fun s2 =>
          (generateYearWiseStackedBarData data mode getSeg selected).1.any
            (fun row => decide (0 < lookupQ row.cells s2))) := rfl
    rw [hact, List.mem_filter]
    constructor
    · rintro ⟨hax, hany⟩
      refine ⟨hax, ?_⟩
      rw [List.any_eq_true] at hany
      obtain ⟨row, hrow, hpos⟩ := hany
      rw [stacked_rows_eq] at hrow
      obtain ⟨y, hy, rfl⟩ := List.mem_map.mp hrow
      refine ⟨y, hy, ?_⟩
      have := of_decide_eq_true hpos
      rwa [lookupQ_map_self _ _ _ hax] at this
    · rintro ⟨hax, y, hy, hpos⟩
      refine ⟨hax, ?_⟩
      rw [List.any_eq_true]
      refine ⟨⟨toString y, (segmentAxis data getSeg selected).map (fun s2 =>
        (s2, segmentTotal data mode getSeg y s2))⟩, ?_, ?_⟩
      · rw [stacked_rows_eq]
        exact List.mem_map.mpr ⟨y, hy, rfl⟩
      · rw [decide_eq_true_eq, lookupQ_map_self _ _ _ hax]
        exact hpos

/-- A pair of records in distinct years and segments, for instantiating the
aggregation-completeness theorem concretely. -/
def aggTestRecords : List ShovelMarketData :=
  [{ (default : ShovelMarketData) with
      year := 2024, productType := "Skin Care", marketValueUsd := 1000 },
   { (default : ShovelMarketData) with
      year := 2025, productType := "Hair Care", marketValueUsd := 3000 }]

theorem aggregation_completeness_witness :
    (∀ row ∈ (generateSegmentChartData aggTestRecords MarketEvaluation.byValue
        (fun d => d.productType) none).1,
      row.cells.map (fun c => c.1) =
        segmentAxis aggTestRecords (fun d => d.productType) none) ∧
    segmentTotal aggTestRecords MarketEvaluation.byValue (fun d => d.productType)
      2024 "Hair Care" = 0 := by
  constructor
  · exact (aggregation_completeness aggTestRecords MarketEvaluation.byValue
      (fun d => d.productType) none).2.1
  · refine (aggregation_completeness aggTestRecords MarketEvaluation.byValue
      (fun d => d.productType) none).2.2.1 2024 "Hair Care" ?_
    decide

/-! ## C6: region/country percentage breakdown

`Object.entries` iterates keys in insertion order, i.e. first occurrence among
the records, modelled by `dedupFirst`; the nested `+=` accumulation of
`regionYearData` / `regionYearTotals` makes each read-off value the sum over
the matching records, modelled by the direct filtered sums `rcCountrySum` /
`rcRegionTotal`. -/

def dedupFirstAux {α : Type} [DecidableEq α] (seen : List α) : List α → List α
  | [] => []
  | a :: t =>
    if a ∈ seen then dedupFirstAux seen t else a :: dedupFirstAux (a :: seen) t

def dedupFirst {α : Type} [DecidableEq α] (l : List α) : List α := dedupFirstAux [] l

lemma mem_dedupFirstAux {α : Type} [DecidableEq α] (l : List α) :
    ∀ (seen : List α) (a : α),
      a ∈ dedupFirstAux seen l ↔ a ∈ l ∧ a ∉ seen := by
  induction l with
  | nil => intro seen a; simp [dedupFirstAux]
  | cons b t ih =>
    intro seen a
    rw [dedupFirstAux]
    by_cases hb : b ∈ seen
    · rw [if_pos hb, ih seen a]
      by_cases hab : a = b
      · subst hab; simp [hb]
      · simp [hab]
    · rw [if_neg hb]
      by_cases hab : a = b
      · subst hab; simp [hb]
      · simp only [List.mem_cons, ih (b :: seen) a, List.mem_cons]
        constructor
        · rintro (h | ⟨h1, h2⟩)
          · exact absurd h hab
          · exact ⟨Or.inr h1, fun hs => h2 (Or.inr hs)⟩
        · rintro ⟨h1 | h1, h2⟩
          · exact absurd h1 hab
          · exact Or.inr ⟨h1, fun hs => by
              rcases hs with hs | hs
              · exact hab hs
              · exact h2 hs⟩

lemma mem_dedupFirst {α : Type} [DecidableEq α] {l : List α} {a : α} :
    a ∈ dedupFirst l ↔ a ∈ l := by
  rw [dedupFirst, mem_dedupFirstAux]
  simp

lemma nodup_dedupFirstAux {α : Type} [DecidableEq α] (l : List α) :
    ∀ seen : List α, (dedupFirstAux seen l).Nodup := by
  induction l with
  | nil => intro seen; simp [dedupFirstAux]
  | cons b t ih =>
    intro seen
    rw [dedupFirstAux]
    by_cases hb : b ∈ seen
    · rw [if_pos hb]; exact ih seen
    · rw [if_neg hb, List.nodup_cons]
      refine ⟨fun hmem => ?_, ih (b :: seen)⟩
      rw [mem_dedupFirstAux] at hmem
      exact hmem.2 (by simp)

lemma nodup_dedupFirst {α : Type} [DecidableEq α] (l : List α) :
    (dedupFirst l).Nodup := nodup_dedupFirstAux l []

def rcCountrySum (mode : MarketEvaluation) (records : List ShovelMarketData)
    (y : ℕ) (reg c : String) : ℚ :=
  ((records.filter (fun d => d.year = y ∧ d.region = reg ∧ d.country = c)).map
    (getDataValue mode)).sum

def rcRegionTotal (mode : MarketEvaluation) (records : List ShovelMarketData)
    (y : ℕ) (reg : String) : ℚ :=
  ((records.filter (fun d => d.year = y ∧ d.region = reg)).map
    (getDataValue mode)).sum

structure RCEntry where
  year : ℕ
  region : String
  country : String
  value : ℚ
  yearRegion : String
  deriving DecidableEq

/-- The `countryList` of one (year, region) group: its countries, sorted. -/
def rcCountries (records : List ShovelMarketData) (y : ℕ) (reg : String) :
    List String :=
  sortStrings (dedupFirst ((records.filter (fun d => d.year = y ∧ d.region = reg)).map
    (fun d => d.country)))

/-- One output entry: percentage share under value mode (0 when the region
total is not positive), raw summed value under volume mode. -/
def rcEntry (mode : MarketEvaluation) (records : List ShovelMarketData)
    (y : ℕ) (reg c : String) : RCEntry :=
  let totalValue := rcRegionTotal mode records y reg
  let v := rcCountrySum mode records y reg c
  let percentage := if 0 < totalValue then v / totalValue * 100 else 0
  { year := y, region := reg, country := c,
    value := if mode = MarketEvaluation.byVolume then v else percentage,
    yearRegion := toString y ++ " - " ++ reg }

/-- The entries of one (year, region) group. -/
def rcBlock (mode : MarketEvaluation) (records : List ShovelMarketData)
    (y : ℕ) (reg : String) : List RCEntry :=
  (rcCountries records y reg).map (rcEntry mode records y reg)

/-- `regionCountryPercentageChartData`: per year (first-occurrence order), per
region within the year, the group's country entries. -/
def regionCountryPercentageChartData (mode : MarketEvaluation)
    (records : List ShovelMarketData) : List RCEntry :=
  (dedupFirst (records.map (fun d => d.year))).flatMap (fun y =>
    (dedupFirst ((records.filter (fun d => d.year = y)).map (fun d => d.region))).flatMap
      (fun reg => rcBlock mode records y reg))

lemma sum_map_split {β : Type} (L : List β) (p : β → Bool) (val : β → ℚ) :
    ((L.filter p).map val).sum + ((L.filter (fun b => !(p b))).map val).sum =
      (L.map val).sum := by
  induction L with
  | nil => simp
  | cons b t ih =>
    by_cases hb : p b
    · rw [List.filter_cons_of_pos hb, List.filter_cons_of_neg (by simp [hb])]
      simp only [List.map_cons, List.sum_cons]
      rw [← ih]; ring
    · rw [List.filter_cons_of_neg (by simpa using hb),
        List.filter_cons_of_pos (by simpa using hb)]
      simp only [List.map_cons, List.sum_cons]
      rw [← ih]; ring

/-- Summing the per-fiber sums over a duplicate-free key list covering all
records gives the total sum. -/
lemma sum_fibers {β κ : Type} [DecidableEq κ] (key : β → κ) (val : β → ℚ) :
    ∀ (K : List κ), K.Nodup → ∀ (L : List β), (∀ b ∈ L, key b ∈ K) →
      (K.map (fun k => ((L.filter (fun b => key b = k)).map val).sum)).sum =
        (L.map val).sum := by
  intro K
  induction K with
  | nil =>
    intro _ L hcov
    cases L with
    | nil => simp
    | cons b t => exact absurd (hcov b (by simp)) (by simp)
  | cons k K2 ih =>
    intro hnd L hcov
    simp only [List.map_cons, List.sum_cons]
    have hsplit := sum_map_split L (fun b => decide (key b = k)) val
    have hfibers : ∀ k2 ∈ K2,
        L.filter (fun b => decide (key b = k2)) =
          (L.filter (fun b => !(decide (key b = k)))).filter
            (fun b => decide (key b = k2)) := by
      intro k2 hk2
      rw [List.filter_filter]
      refine (List.filter_congr ?_).symm
      intro b _
      by_cases hb : key b = k2
      · have hk2k : k2 ≠ k := fun h => (List.nodup_cons.mp hnd).1 (h ▸ hk2)
        simp [hb, hk2k]
      · simp [hb]
    have hmap : K2.map (fun k2 => ((L.filter (fun b => decide (key b = k2))).map val).sum) =
        K2.map (fun k2 => (((L.filter (fun b => !(decide (key b = k)))).filter
          (fun b => decide (key b = k2))).map val).sum) :=
      List.map_congr_left (fun k2 hk2 => by rw [hfibers k2 hk2])
    rw [hmap, ih (List.nodup_cons.mp hnd).2 (L.filter (fun b => !(decide (key b = k))))
      (fun b hb => ?_)]
    · rw [← hsplit]
    · have hbL := (List.mem_filter.mp hb).1
      have hbk : ¬(key b = k) := by
        have := (List.mem_filter.mp hb).2
        simpa using this
      rcases List.mem_cons.mp (hcov b hbL) with h | h
      · exact absurd h hbk
      · exact h

lemma sum_map_scale (K : List String) (f : String → ℚ) (T : ℚ) :
    (K.map (fun c => f c / T * 100)).sum = (K.map f).sum / T * 100 := by
  induction K with
  | nil => simp
  | cons c t ih =>
    simp only [List.map_cons, List.sum_cons, ih]
    ring

/-- Filtering a `flatMap` down to the blocks of a single key. -/
lemma filter_flatMap_single {α β : Type} (l : List α) (g : α → List β) (p : β → Bool)
    (a : α) (hnd : l.Nodup) (ha : a ∈ l)
    (hz : ∀ b ∈ l, b ≠ a → (g b).filter p = []) :
    (l.flatMap g).filter p = (g a).filter p := by
  induction l with
  | nil => cases ha
  | cons x t ih =>
    rw [List.flatMap_cons, List.filter_append]
    by_cases hxa : x = a
    · subst hxa
      have hnil : (t.flatMap g).filter p = [] := by
        rw [List.filter_eq_nil_iff]
        intro e he
        obtain ⟨b, hb, hbe⟩ := List.mem_flatMap.mp he
        have hba : b ≠ x := fun h => (List.nodup_cons.mp hnd).1 (h ▸ hb)
        have hfb := hz b (List.mem_cons_of_mem _ hb) hba
        rw [List.filter_eq_nil_iff] at hfb
        exact hfb e hbe
      rw [hnil, List.append_nil]
    · rw [hz x (List.mem_cons_self _ _) hxa, List.nil_append]
      have hat : a ∈ t := by
        rcases List.mem_cons.mp ha with h | h
        · exact absurd h.symm hxa
        · exact h
      exact ih (List.nodup_cons.mp hnd).2 hat
        (fun b hb hba => hz b (List.mem_cons_of_mem _ hb) hba)

/-- Every output entry comes from the (year, region, country) block its fields
name. -/
lemma rc_entry_shape (mode : MarketEvaluation) (records : List ShovelMarketData)
    (e : RCEntry) (he : e ∈ regionCountryPercentageChartData mode records) :
    e.value = (if mode = MarketEvaluation.byVolume then
        rcCountrySum mode records e.year e.region e.country
      else if 0 < rcRegionTotal mode records e.year e.region then
        rcCountrySum mode records e.year e.region e.country /
          rcRegionTotal mode records e.year e.region * 100
      else 0) := by
  unfold regionCountryPercentageChartData rcBlock at he
  rw [List.mem_flatMap] at he
  obtain ⟨y, _, he⟩ := he
  rw [List.mem_flatMap] at he
  obtain ⟨reg, _, he⟩ := he
  rw [List.mem_map] at he
  obtain ⟨c, _, rfl⟩ := he
  rfl

/-- C6.  Under value mode each entry's value is its country share of the
(year, region) total as a percentage, 0 when the total is not positive; under
volume mode it is the raw summed value; and with non-negative record values,
for every (year, region) with non-zero total the group's percentages sum to
exactly 100, while a zero total yields 0 for every country of the group. -/
theorem regionCountry_percentage_invariant (records : List ShovelMarketData) :
    (∀ e ∈ regionCountryPercentageChartData MarketEvaluation.byValue records,
      (0 < rcRegionTotal MarketEvaluation.byValue records e.year e.region →
        e.value = rcCountrySum MarketEvaluation.byValue records e.year e.region e.country /
          rcRegionTotal MarketEvaluation.byValue records e.year e.region * 100) ∧
      (rcRegionTotal MarketEvaluation.byValue records e.year e.region = 0 →
        e.value = 0)) ∧
    ((∀ r ∈ records, 0 ≤ getDataValue MarketEvaluation.byValue r) →
      ∀ y reg, rcRegionTotal MarketEvaluation.byValue records y reg ≠ 0 →
        (((regionCountryPercentageChartData MarketEvaluation.byValue records).filter
          (fun e => e.year = y ∧ e.region = reg)).map (fun e => e.value)).sum = 100) ∧
    (∀ e ∈ regionCountryPercentageChartData MarketEvaluation.byVolume records,
      e.value = rcCountrySum MarketEvaluation.byVolume records e.year e.region e.country) := by
  refine ⟨?_, ?_, ?_⟩
  · intro e he
    have h := rc_entry_shape MarketEvaluation.byValue records e he
    rw [if_neg (by simp)] at h
    constructor
    · intro hT
      rw [h, if_pos hT]
    · intro hT0
      rw [h, if_neg (by rw [hT0]; exact lt_irrefl 0)]
  · intro hn y reg hT
    -- the total is positive
    have hTnn : 0 ≤ rcRegionTotal MarketEvaluation.byValue records y reg := by
      refine List.sum_nonneg ?_
      intro q hq
      obtain ⟨d, hd, rfl⟩ := List.mem_map.mp hq
      exact hn d (List.mem_of_mem_filter hd)
    have hTpos : 0 < rcRegionTotal MarketEvaluation.byValue records y reg :=
      lt_of_le_of_ne hTnn (Ne.symm hT)
    -- the group is inhabited
    have hne : records.filter (fun d => decide (d.year = y ∧ d.region = reg)) ≠ [] := by
      intro hnil
      apply hT
      unfold rcRegionTotal
      rw [hnil]
      rfl
    obtain ⟨r0, hr0⟩ := List.exists_mem_of_ne_nil _ hne
    have hr0rec : r0 ∈ records := List.mem_of_mem_filter hr0
    have hr0p := of_decide_eq_true (List.mem_filter.mp hr0).2
    have hr0y : r0.year = y := hr0p.1
    have hr0reg : r0.region = reg := hr0p.2
    -- locate the (y, reg) block
    have hymem : y ∈ dedupFirst (records.map (fun d => d.year)) :=
      mem_dedupFirst.mpr (List.mem_map.mpr ⟨r0, hr0rec, hr0y⟩)
    have hregmem : reg ∈ dedupFirst ((records.filter (fun d => d.year = y)).map
        (fun d => d.region)) := by
      refine mem_dedupFirst.mpr (List.mem_map.mpr ⟨r0, ?_, hr0reg⟩)
      exact List.mem_filter.mpr ⟨hr0rec, by simp [hr0y]⟩
    set F : RCEntry → Bool := fun e => decide (e.year = y ∧ e.region = reg) with hF
    -- reduce the output filter to the single block
    have houter : (regionCountryPercentageChartData MarketEvaluation.byValue records).filter F =
        ((dedupFirst ((records.filter (fun d => d.year = y)).map (fun d => d.region))).flatMap
          (fun reg2 => rcBlock MarketEvaluation.byValue records y reg2)).filter F := by
      unfold regionCountryPercentageChartData
      refine filter_flatMap_single _ _ F y (nodup_dedupFirst _) hymem ?_
      intro y2 _ hy2
      rw [List.filter_eq_nil_iff]
      intro e he
      obtain ⟨reg2, _, he⟩ := List.mem_flatMap.mp he
      obtain ⟨c, _, rfl⟩ := List.mem_map.mp he
      simp [hF, rcEntry, hy2]
    have hinner : ((dedupFirst ((records.filter (fun d => d.year = y)).map
          (fun d => d.region))).flatMap
          (fun reg2 => rcBlock MarketEvaluation.byValue records y reg2)).filter F =
        (rcBlock MarketEvaluation.byValue records y reg).filter F := by
      refine filter_flatMap_single _ _ F reg (nodup_dedupFirst _) hregmem ?_
      intro reg2 _ hreg2
      rw [List.filter_eq_nil_iff]
      intro e he
      obtain ⟨c, _, rfl⟩ := List.mem_map.mp he
      simp [hF, rcEntry, hreg2]
    have hself : (rcBlock MarketEvaluation.byValue records y reg).filter F =
        rcBlock MarketEvaluation.byValue records y reg := by
      rw [List.filter_eq_self]
      intro e he
      obtain ⟨c, _, rfl⟩ := List.mem_map.mp he
      simp [hF, rcEntry]
    rw [houter, hinner, hself]
    -- expand the block and compute the sum
    unfold rcBlock
    rw [List.map_map]
    have hvals : (rcCountries records y reg).map
        ((fun e : RCEntry => e.value) ∘ rcEntry MarketEvaluation.byValue records y reg) =
        (rcCountries records y reg).map (fun c =>
          rcCountrySum MarketEvaluation.byValue records y reg c /
            rcRegionTotal MarketEvaluation.byValue records y reg * 100) := by
      refine List.map_congr_left ?_
      intro c _
      simp only [Function.comp, rcEntry]
      rw [if_neg (by simp), if_pos hTpos]
    rw [hvals, sum_map_scale]
    -- the per-country sums partition the group total
    have hfib : ∀ c : String,
        rcCountrySum MarketEvaluation.byValue records y reg c =
          (((records.filter (fun d => decide (d.year = y ∧ d.region = reg))).filter
            (fun d => decide (d.country = c))).map
              (getDataValue MarketEvaluation.byValue)).sum := by
      intro c
      unfold rcCountrySum
      rw [List.filter_filter]
      congr 1
      refine congrArg _ ?_
      refine List.filter_congr ?_
      intro d _
      by_cases h1 : d.year = y <;> by_cases h2 : d.region = reg <;>
        by_cases h3 : d.country = c <;> simp [h1, h2, h3]
    have hcov : ∀ d ∈ records.filter (fun d => decide (d.year = y ∧ d.region = reg)),
        d.country ∈ rcCountries records y reg := by
      intro d hd
      unfold rcCountries
      rw [mem_sortStrings]
      exact mem_dedupFirst.mpr (List.mem_map.mpr ⟨d, hd, rfl⟩)
    have hnodup : (rcCountries records y reg).Nodup := by
      unfold rcCountries
      exact ((sortStrings_perm _).nodup_iff).mpr (nodup_dedupFirst _)
    have hsum : ((rcCountries records y reg).map
        (fun c => rcCountrySum MarketEvaluation.byValue records y reg c)).sum =
        rcRegionTotal MarketEvaluation.byValue records y reg := by
      have := sum_fibers (fun d : ShovelMarketData => d.country)
        (getDataValue MarketEvaluation.byValue) (rcCountries records y reg) hnodup
        (records.filter (fun d => decide (d.year = y ∧ d.region = reg))) hcov
      calc ((rcCountries records y reg).map
          (fun c => rcCountrySum MarketEvaluation.byValue records y reg c)).sum
          = ((rcCountries records y reg).map (fun c =>
              (((records.filter (fun d => decide (d.year = y ∧ d.region = reg))).filter
                (fun d => decide (d.country = c))).map
                  (getDataValue MarketEvaluation.byValue)).sum)).sum := by
            refine congrArg _ (List.map_congr_left ?_)
            intro c _
            exact hfib c
        _ = rcRegionTotal MarketEvaluation.byValue records y reg := this
    rw [hsum, div_self hT, one_mul]
  · intro e he
    have h := rc_entry_shape MarketEvaluation.byVolume records e he
    rwa [if_pos rfl] at h

/-- Two records in one (year, region) group with shares 25 % and 75 %. -/
def rcTestRecords : List ShovelMarketData :=
  [{ (default : ShovelMarketData) with
      year := 2024, region := "R", country := "A", marketValueUsd := 1000 },
   { (default : ShovelMarketData) with
      year := 2024, region := "R", country := "B", marketValueUsd := 3000 }]

theorem regionCountry_percentage_invariant_witness :
    (((regionCountryPercentageChartData MarketEvaluation.byValue rcTestRecords).filter
      (fun e => e.year = 2024 ∧ e.region = "R")).map (fun e => e.value)).sum = 100 :=
  (regionCountry_percentage_invariant rcTestRecords).2.1
    (by intro r hr; fin_cases hr <;> norm_num [getDataValue]) 2024 "R"
    (by norm_num [rcRegionTotal, rcTestRecords, getDataValue])

/-! ## C5: product-type chart generation -/

structure ProductTypeHierarchyItem where
  mainCategory : String
  subCategories : List String
  deriving DecidableEq

/-- `getProductTypeHierarchy` from the data module. -/
def getProductTypeHierarchy : List ProductTypeHierarchyItem :=
  [ { mainCategory := "Skin Care",
      subCategories := [
        "Serums",
        "Moisturizers & Creams",
        "Face Oils (Abhyanga / Ayurvedic oils)",
        "Face Wash & Cleansers",
        "Toners / Mists",
        "Sunscreen" ] },
    { mainCategory := "Hair Care",
      subCategories := [
        "Oils & Serums",
        "Shampoos",
        "Conditioners & Hair Masks",
        "Hair Growth & Scalp Treatments" ] },
    { mainCategory := "Body Care",
      subCategories := [
        "Body Oils (Ayurvedic Abhyangsnan, Massage Oils)",
        "Lotions & Butters",
        "Body Wash / Scrubs" ] },
    { mainCategory := "Cosmetic & Beauty Enhancers",
      subCategories := [
        "Makeup (base, eyes, lips)",
        "Nail & Hand Care" ] },
    { mainCategory := "Cosmetology Kits",
      subCategories := [
        "Facial Kits (Anti-Aging, Hydration, Acne)",
        "Hair Treatment Kits",
        "Seasonal Wellness Kits (Festive, Bridal, Ritual-based)",
        "Travel + Daily Routine Kits" ] } ]

/-- `parentToChildren`: each main category mapped to its `"Parent - Child"`
strings. -/
def parentToChildren : List (String × List String) :=
  getProductTypeHierarchy.map (fun h =>
    (h.mainCategory, h.subCategories.map (fun sub => h.mainCategory ++ " - " ++ sub)))

/-- `parentToChildren.has(p)`. -/
def isParentCat (p : String) : Bool := (alookup parentToChildren p).isSome

/-- `parentToChildren.get(p)` (with the `!` assertion modelled as `[]`). -/
def childrenOf (p : String) : List String := (alookup parentToChildren p).getD []

/-- `[...new Set(filteredData.map(d => d.productType))].filter(Boolean).sort()`. -/
def allProductTypesFromData (filteredData : List ShovelMarketData) : List String :=
  sortStrings (((filteredData.map (fun d => d.productType)).dedup).filter
    (fun s => s ≠ ""))

structure PTChartResult where
  chartData : List ChartRow
  segments : List String
  stackedChartData : List ChartRow
  stackedSegments : List String
  isStacked : Bool
  deriving DecidableEq

/-- The grouped-bars fallback of `generateProductTypeChartData`: each selected
parent expands to its children present in the data, selected leaves keep
themselves when present, the result deduplicated and sorted. -/
def ptGrouped (filteredData : List ShovelMarketData)
    (selectedProductTypes : List String) (mode : MarketEvaluation) : PTChartResult :=
  let allTypes := allProductTypesFromData filteredData
  let segmentsToShow :=
    sortStrings (dedupFirst (if 0 < selectedProductTypes.length then
      selectedProductTypes.flatMap (fun sel =>
        if isParentCat sel then (childrenOf sel).filter (fun c => decide (c ∈ allTypes))
        else if sel ∈ allTypes then [sel] else [])
    else allTypes))
  let segmentMap := filteredData.foldl (fun m d =>
    if decide (d.productType ∈ segmentsToShow) then
      bump m (d.year, d.productType) (getDataValue mode d)
    else m) []
  let chartData := (sortedYears filteredData).map (fun y =>
    { year := toString y,
      cells := segmentsToShow.map (fun s2 => (s2, lookupQ segmentMap (y, s2))) })
  { chartData := chartData, segments := segmentsToShow,
    stackedChartData := [], stackedSegments := [], isStacked := false }

/-- `generateProductTypeChartData`: with exactly one selected parent, no
selected leaf children, and at least one of the parent's children present in
the data, emit the parent's-children-stacked dataset; otherwise fall back to
the grouped dataset. -/
def selectedParentsOf (selectedProductTypes : List String) : List String :=
  selectedProductTypes.filter (fun sel => isParentCat sel)

def selectedChildrenOf (selectedProductTypes : List String) : List String :=
  selectedProductTypes.filter (fun sel => !(isParentCat sel))

/-- The selected parent's children that occur in the data. -/
def validChildrenOf (filteredData : List ShovelMarketData) (parent : String) :
    List String :=
  (childrenOf parent).filter (fun c => decide (c ∈ allProductTypesFromData filteredData))

def generateProductTypeChartData (filteredData : List ShovelMarketData)
    (selectedProductTypes : List String) (mode : MarketEvaluation) : PTChartResult :=
  let selectedParents := selectedParentsOf selectedProductTypes
  let selectedChildren := selectedChildrenOf selectedProductTypes
  if selectedParents.length = 1 ∧ selectedChildren.length = 0 then
    let parent := selectedParents.headD ""
    let validChildren := validChildrenOf filteredData parent
    if 0 < validChildren.length then
      let yearChildMap := filteredData.foldl (fun m d =>
        if decide (d.productType ∈ validChildren) then
          bump m (d.year, d.productType) (getDataValue mode d)
        else m) []
      let chartData := (sortedYears filteredData).map (fun y =>
        { year := toString y,
          cells := validChildren.map (fun c => (c, lookupQ yearChildMap (y, c))) })
      { chartData := [], segments := [],
        stackedChartData := chartData, stackedSegments := validChildren,
        isStacked := true }
    else ptGrouped filteredData selectedProductTypes mode
  else ptGrouped filteredData selectedProductTypes mode

/-- The record set the upstream exact-match product-type filter produces when
only the parent "Skin Care" is selected: parent rows only, no child rows. -/
def ptParentOnlyRecords : List ShovelMarketData :=
  [{ (default : ShovelMarketData) with
      year := 2024, productType := "Skin Care", marketValueUsd := 1000 }]

/-- C5 counterexample.  With the product-type filter selecting exactly the one
top-level parent "Skin Care" and zero leaf children — and the record set being
exactly what that filter leaves, namely parent-typed rows only — the output is
NOT stacked (`isStacked = false`, with an empty segment axis), contradicting
the claimed switch to stacked mode. -/
theorem productType_single_parent_not_stacked :
    (generateProductTypeChartData ptParentOnlyRecords ["Skin Care"]
      MarketEvaluation.byValue).isStacked = false ∧
    (generateProductTypeChartData ptParentOnlyRecords ["Skin Care"]
      MarketEvaluation.byValue).segments = [] := by
  constructor <;> rfl

lemma alookup_mem {α : Type} {l : List (String × α)} {k : String} {v : α}
    (h : alookup l k = some v) : (k, v) ∈ l := by
  induction l with
  | nil => simp [alookup] at h
  | cons p t ih =>
    obtain ⟨a, w⟩ := p
    rw [alookup] at h
    by_cases hk : k = a
    · rw [if_pos hk] at h
      cases h
      subst hk
      simp
    · rw [if_neg hk] at h
      exact List.mem_cons_of_mem _ (ih h)

/-- No main category occurs among the `"Parent - Child"` strings of any
hierarchy entry. -/
lemma parent_not_child {q : String} (hq : isParentCat q = true) :
    ∀ p2, q ∉ childrenOf p2 := by
  intro p2 hmem
  rw [isParentCat] at hq
  rw [Option.isSome_iff_exists] at hq
  obtain ⟨cs, hcs⟩ := hq
  have hqmem := alookup_mem hcs
  unfold childrenOf at hmem
  rcases hlook : alookup parentToChildren p2 with _ | cs2
  · rw [hlook] at hmem
    simp at hmem
  · rw [hlook] at hmem
    simp only [Option.getD_some] at hmem
    have hmem2 := alookup_mem hlook
    have hfact : ∀ e ∈ parentToChildren, ∀ e2 ∈ parentToChildren, e.1 ∉ e2.2 := by decide
    exact hfact (q, cs) hqmem (p2, cs2) hmem2 hmem

lemma pt_stacked_lookup (data : List ShovelMarketData) (mode : MarketEvaluation)
    (VC : List String) (y : ℕ) (c : String) (hc : c ∈ VC) :
    lookupQ (data.foldl (fun m d =>
      if decide (d.productType ∈ VC) then
        bump m (d.year, d.productType) (getDataValue mode d)
      else m) []) (y, c) =
      segmentTotal data mode (fun d => d.productType) y c := by
  rw [lookupQ_foldl_bump (fun d => (d.year, d.productType)) (getDataValue mode)
    (fun d => decide (d.productType ∈ VC)) data (y, c) []]
  have hfil : data.filter (fun d => decide ((decide (d.productType ∈ VC)) = true ∧
      (d.year, d.productType) = (y, c))) =
      data.filter (fun d => decide (d.year = y ∧ d.productType = c)) := by
    refine List.filter_congr ?_
    intro d _
    by_cases h1 : d.year = y <;> by_cases h2 : d.productType = c <;>
      simp [h1, h2, Prod.ext_iff]
    exact h2 ▸ hc
  rw [lookupQ, zero_add, hfil, segmentTotal]

/-- C5 amended.  With exactly one selected top-level parent, no selected leaf
children, and at least one of the parent's `"Parent - Child"` rows present in
the records, the output is stacked and keyed by exactly those present
children — never the parent itself; in every other case (the parent's children
absent from the data, a mixed or multi-parent selection, or an empty
selection) the output is grouped, with each selected parent expanded one level
into its children present in the data and no selected parent on the segment
axis. -/
theorem productType_chart_modes (filteredData : List ShovelMarketData)
    (sel : List String) (mode : MarketEvaluation) :
    (∀ p, selectedParentsOf sel = [p] → selectedChildrenOf sel = [] →
      validChildrenOf filteredData p ≠ [] →
      (generateProductTypeChartData filteredData sel mode).isStacked = true ∧
      (generateProductTypeChartData filteredData sel mode).stackedSegments =
        validChildrenOf filteredData p ∧
      p ∉ (generateProductTypeChartData filteredData sel mode).stackedSegments ∧
      (generateProductTypeChartData filteredData sel mode).stackedChartData =
        (sortedYears filteredData).map (fun y =>
          { year := toString y,
            cells := (validChildrenOf filteredData p).map (fun c =>
              (c, segmentTotal filteredData mode (fun d => d.productType) y c)) })) ∧
    (sel = ["Skin Care"] →
      (∀ c ∈ childrenOf "Skin Care", c ∈ allProductTypesFromData filteredData) →
      (generateProductTypeChartData filteredData sel mode).stackedSegments =
        [ "Skin Care - Serums",
          "Skin Care - Moisturizers & Creams",
          "Skin Care - Face Oils (Abhyanga / Ayurvedic oils)",
          "Skin Care - Face Wash & Cleansers",
          "Skin Care - Toners / Mists",
          "Skin Care - Sunscreen" ]) ∧
    (¬((selectedParentsOf sel).length = 1 ∧ selectedChildrenOf sel = []) →
      (generateProductTypeChartData filteredData sel mode).isStacked = false ∧
      (0 < sel.length →
        (∀ s2, s2 ∈ (generateProductTypeChartData filteredData sel mode).segments ↔
          ((∃ p2 ∈ selectedParentsOf sel, s2 ∈ childrenOf p2) ∨
            s2 ∈ selectedChildrenOf sel) ∧
            s2 ∈ allProductTypesFromData filteredData) ∧
        (∀ p2 ∈ selectedParentsOf sel,
          p2 ∉ (generateProductTypeChartData filteredData sel mode).segments))) ∧
    (sel = [] →
      (generateProductTypeChartData filteredData sel mode).isStacked = false ∧
      ∀ s2, s2 ∈ (generateProductTypeChartData filteredData sel mode).segments ↔
        s2 ∈ allProductTypesFromData filteredData) := by
  have hstacked : ∀ p, selectedParentsOf sel = [p] → selectedChildrenOf sel = [] →
      validChildrenOf filteredData p ≠ [] →
      generateProductTypeChartData filteredData sel mode =
        { chartData := [], segments := [],
          stackedChartData := (sortedYears filteredData).map (fun y =>
            { year := toString y,
              cells := (validChildrenOf filteredData p).map (fun c =>
                (c, lookupQ (filteredData.foldl (fun m d =>
                  if decide (d.productType ∈ validChildrenOf filteredData p) then
                    bump m (d.year, d.productType) (getDataValue mode d)
                  else m) []) (y, c))) }),
          stackedSegments := validChildrenOf filteredData p,
          isStacked := true } := by
    intro p hp hc hvc
    unfold generateProductTypeChartData
    rw [hp, hc]
    rw [if_pos (by simp)]
    have hhead : ([p].headD "") = p := rfl
    rw [hhead, if_pos (List.length_pos.mpr hvc)]
  refine ⟨?_, ?_, ?_, ?_⟩
  · intro p hp hc hvc
    rw [hstacked p hp hc hvc]
    refine ⟨rfl, rfl, ?_, ?_⟩
    · intro hmem
      have hppar : isParentCat p = true := by
        have : p ∈ selectedParentsOf sel := by rw [hp]; simp
        exact of_decide_eq_true (by
          have := (List.mem_filter.mp this).2
          simpa using this)
      have hpch : p ∈ childrenOf p := List.mem_of_mem_filter hmem
      exact parent_not_child hppar p hpch
    · refine List.map_congr_left ?_
      intro y _
      refine congrArg (fun cs => ChartRow.mk (toString y) cs) ?_
      refine List.map_congr_left ?_
      intro c hcmem
      rw [pt_stacked_lookup filteredData mode _ y c hcmem]
  · intro hsel hall
    subst hsel
    have hp : selectedParentsOf ["Skin Care"] = ["Skin Care"] := by decide
    have hc : selectedChildrenOf ["Skin Care"] = [] := by decide
    have hvcfull : validChildrenOf filteredData "Skin Care" = childrenOf "Skin Care" := by
      unfold validChildrenOf
      rw [List.filter_eq_self]
      intro c hcmem
      exact decide_eq_true (hall c hcmem)
    have hvc : validChildrenOf filteredData "Skin Care" ≠ [] := by
      rw [hvcfull]
      decide
    rw [hstacked "Skin Care" hp hc hvc]
    show validChildrenOf filteredData "Skin Care" = _
    rw [hvcfull]
    rfl
  · intro hguard
    have hbranch : generateProductTypeChartData filteredData sel mode =
        ptGrouped filteredData sel mode := by
      unfold generateProductTypeChartData
      rw [if_neg (by
        intro hcond
        refine hguard ⟨hcond.1, ?_⟩
        exact List.length_eq_zero.mp hcond.2)]
    rw [hbranch]
    refine ⟨rfl, fun hlen => ?_⟩
    have hchar : ∀ s2, s2 ∈ (ptGrouped filteredData sel mode).segments ↔
        ((∃ p2 ∈ selectedParentsOf sel, s2 ∈ childrenOf p2) ∨
          s2 ∈ selectedChildrenOf sel) ∧
          s2 ∈ allProductTypesFromData filteredData := by
      intro s2
      have hseg : (ptGrouped filteredData sel mode).segments =
          sortStrings (dedupFirst (sel.flatMap (fun sel2 =>
            if isParentCat sel2 then
              (childrenOf sel2).filter (fun c =>
                decide (c ∈ allProductTypesFromData filteredData))
            else if sel2 ∈ allProductTypesFromData filteredData then [sel2] else []))) := by
        simp only [ptGrouped]
        rw [if_pos hlen]
      rw [hseg, mem_sortStrings, mem_dedupFirst, List.mem_flatMap]
      constructor
      · rintro ⟨sel2, hsel2, hin⟩
        by_cases hpar : isParentCat sel2
        · rw [if_pos hpar] at hin
          rw [List.mem_filter] at hin
          exact ⟨Or.inl ⟨sel2, List.mem_filter.mpr ⟨hsel2, by simpa using hpar⟩, hin.1⟩,
            of_decide_eq_true hin.2⟩
        · rw [if_neg hpar] at hin
          by_cases hdat : sel2 ∈ allProductTypesFromData filteredData
          · rw [if_pos hdat] at hin
            rcases List.mem_singleton.mp hin with rfl
            exact ⟨Or.inr (List.mem_filter.mpr ⟨hsel2, by simpa using hpar⟩), hdat⟩
          · rw [if_neg hdat] at hin
            simp at hin
      · rintro ⟨hsrc, hdat⟩
        rcases hsrc with ⟨p2, hp2, hs2ch⟩ | hs2c
        · refine ⟨p2, List.mem_of_mem_filter hp2, ?_⟩
          have hpar : isParentCat p2 = true := by
            have := (List.mem_filter.mp hp2).2
            simpa using this
          rw [if_pos hpar]
          exact List.mem_filter.mpr ⟨hs2ch, decide_eq_true hdat⟩
        · refine ⟨s2, List.mem_of_mem_filter hs2c, ?_⟩
          have hnpar : isParentCat s2 = false := by
            have := (List.mem_filter.mp hs2c).2
            simpa using this
          rw [if_neg (by simp [hnpar])]
          rw [if_pos hdat]
          simp
    refine ⟨hchar, ?_⟩
    intro p2 hp2 hmem
    have hpar : isParentCat p2 = true := by
      have := (List.mem_filter.mp hp2).2
      simpa using this
    rcases (hchar p2).mp hmem with ⟨⟨p3, _, hch⟩ | hc2, _⟩
    · exact parent_not_child hpar p3 hch
    · have hnpar : isParentCat p2 = false := by
        have := (List.mem_filter.mp hc2).2
        simpa using this
      rw [hpar] at hnpar
      cases hnpar
  · intro hsel
    subst hsel
    have hguard : ¬((selectedParentsOf ([] : List String)).length = 1 ∧
        selectedChildrenOf ([] : List String) = []) := by decide
    have hbranch : generateProductTypeChartData filteredData [] mode =
        ptGrouped filteredData [] mode := by
      unfold generateProductTypeChartData
      rw [if_neg (by
        intro hcond
        exact hguard ⟨hcond.1, List.length_eq_zero.mp hcond.2⟩)]
    rw [hbranch]
    refine ⟨rfl, ?_⟩
    intro s2
    have hseg : (ptGrouped filteredData [] mode).segments =
        sortStrings (dedupFirst (allProductTypesFromData filteredData)) := by
      simp only [ptGrouped]
      rw [if_neg (by simp)]
    rw [hseg, mem_sortStrings, mem_dedupFirst]

/-- A record set containing one of the parent's child rows (what the upstream
filter would keep if the child were selected into the data). -/
def ptChildRecords : List ShovelMarketData :=
  [{ (default : ShovelMarketData) with
      year := 2024, productType := "Skin Care - Serums", marketValueUsd := 1000 }]

theorem productType_chart_modes_witness :
    (generateProductTypeChartData ptChildRecords ["Skin Care"]
      MarketEvaluation.byValue).isStacked = true ∧
    "Skin Care" ∉ (generateProductTypeChartData ptChildRecords ["Skin Care"]
      MarketEvaluation.byValue).stackedSegments ∧
    (generateProductTypeChartData ptChildRecords ["Skin Care", "Hair Care"]
      MarketEvaluation.byValue).isStacked = false := by
  have h1 := (productType_chart_modes ptChildRecords ["Skin Care"]
    MarketEvaluation.byValue).1 "Skin Care" (by decide) (by decide) (by decide)
  have h3 := (productType_chart_modes ptChildRecords ["Skin Care", "Hair Care"]
    MarketEvaluation.byValue).2.2.1 (by decide)
  exact ⟨h1.1, h1.2.2.1, h3.1⟩

/-!
### Bubble separation (`separateBubbleData`, page lines 1380–1489)

The resolver mutates a copied array of bubbles in up to 200 passes over all
index pairs `i < j`.  Overlapping pairs are pushed apart deterministically;
exactly coincident pairs are pushed along `Math.random() * Math.PI * 2`.
We model `Math.random()` as an explicit stream `rand : ℕ → ℝ` together with
a counter `k` of consumed draws, so determinism questions become questions
about dependence on the stream.
-/

structure BubbleDatum where
  region : String
  cagrIndex : ℝ
  marketShareIndex : ℝ
  incrementalOpportunity : ℝ
  description : Option String := none

instance : Inhabited BubbleDatum := ⟨⟨"", 0, 0, 0, none⟩⟩

/-- The constants fixed before the iteration loop begins. -/
structure SepConsts where
  minOpportunity : ℝ
  sizeRange : ℝ
  pixelToData : ℝ

/-- `getBubbleSize` closure (sizeRange > 0 ? 30 + (opp-min)/range*170 : 100). -/
noncomputable def getBubbleSize (C : SepConsts) (opp : ℝ) : ℝ :=
  if 0 < C.sizeRange then 30 + (opp - C.minOpportunity) / C.sizeRange * 170 else 100

/-- `Math.max(0, Math.min(10, x))` bounds clamp. -/
noncomputable def clampCoord (x : ℝ) : ℝ := max 0 (min 10 x)

def minSeparationFactor : ℝ := 1.6

/-- Mutable loop state: the bubble array, the number of `Math.random()`
draws consumed so far, and the current pass's `hasOverlap` flag. -/
structure SepState where
  bubbles : List BubbleDatum
  k : ℕ
  hasOverlap : Bool

/-- The body of the inner double loop for one pair `(i, j)`. -/
noncomputable def pairStep (C : SepConsts) (rand : ℕ → ℝ) (st : SepState)
    (ij : ℕ × ℕ) : SepState :=
  let bubble1 := st.bubbles.getD ij.1 default
  let bubble2 := st.bubbles.getD ij.2 default
  let dx := bubble2.cagrIndex - bubble1.cagrIndex
  let dy := bubble2.marketShareIndex - bubble1.marketShareIndex
  let distance := Real.sqrt (dx * dx + dy * dy)
  let size1 := getBubbleSize C bubble1.incrementalOpportunity
  let size2 := getBubbleSize C bubble2.incrementalOpportunity
  let radius1Data := size1 / 2 * C.pixelToData
  let radius2Data := size2 / 2 * C.pixelToData
  let requiredDistance := (radius1Data + radius2Data) * minSeparationFactor
  if distance < requiredDistance ∧ 0.0001 < distance then
    let overlap := requiredDistance - distance
    let damping : ℝ := 0.5
    let separationAmount := overlap * damping
    let unitX := dx / distance
    let unitY := dy / distance
    let totalSize := size1 + size2
    let moveRatio1 := size2 / totalSize
    let moveRatio2 := size1 / totalSize
    let b1 := { bubble1 with
      cagrIndex := clampCoord (bubble1.cagrIndex - unitX * separationAmount * moveRatio1),
      marketShareIndex :=
        clampCoord (bubble1.marketShareIndex - unitY * separationAmount * moveRatio1) }
    let b2 := { bubble2 with
      cagrIndex := clampCoord (bubble2.cagrIndex + unitX * separationAmount * moveRatio2),
      marketShareIndex :=
        clampCoord (bubble2.marketShareIndex + unitY * separationAmount * moveRatio2) }
    { bubbles := (st.bubbles.set ij.1 b1).set ij.2 b2, k := st.k, hasOverlap := true }
  else if distance = 0 ∨ (|dx| < 0.001 ∧ |dy| < 0.001) then
    let avgRadius := (size1 + size2) / 4 * C.pixelToData
    let pushDistance := avgRadius * minSeparationFactor * 0.5
    let angle := rand st.k * Real.pi * 2
    let b1 := { bubble1 with
      cagrIndex := clampCoord (bubble1.cagrIndex - Real.cos angle * pushDistance),
      marketShareIndex :=
        clampCoord (bubble1.marketShareIndex - Real.sin angle * pushDistance) }
    let b2 := { bubble2 with
      cagrIndex := clampCoord (bubble2.cagrIndex + Real.cos angle * pushDistance),
      marketShareIndex :=
        clampCoord (bubble2.marketShareIndex + Real.sin angle * pushDistance) }
    { bubbles := (st.bubbles.set ij.1 b1).set ij.2 b2, k := st.k + 1, hasOverlap := true }
  else st

/-- The index pairs `(i, j)` with `i < j < n` in the JS double-loop order. -/
def pairList (n : ℕ) : List (ℕ × ℕ) :=
  (List.range n).flatMap fun i => ((List.range n).filter fun j => i < j).map fun j => (i, j)

/-- One iteration of the outer `for` loop: reset `hasOverlap`, sweep all pairs. -/
noncomputable def sepPass (C : SepConsts) (rand : ℕ → ℝ) (st : SepState) : SepState :=
  (pairList st.bubbles.length).foldl (pairStep C rand) { st with hasOverlap := false }

/-- The outer loop with its early `break` when a pass found no overlap. -/
noncomputable def sepLoop (C : SepConsts) (rand : ℕ → ℝ) : ℕ → SepState → SepState
  | 0, st => st
  | n + 1, st =>
    let st2 := sepPass C rand st
    if st2.hasOverlap then sepLoop C rand n st2 else st2

/-- `Math.max(...xs)` / `Math.min(...xs)`; only ever applied to the non-empty
map of a list of length ≥ 2, so the `[]` default is irrelevant. -/
noncomputable def listMaxR : List ℝ → ℝ
  | [] => 0
  | x :: xs => xs.foldl max x

noncomputable def listMinR : List ℝ → ℝ
  | [] => 0
  | x :: xs => xs.foldl min x

/-- `x || 1` on a JS number: 0 is the only falsy value arising here. -/
noncomputable def orOne (x : ℝ) : ℝ := if x = 0 then 1 else x

/-- The constants block computed from the input before the loop. -/
noncomputable def sepConstsOf (data : List BubbleDatum) : SepConsts :=
  let maxOpportunity := listMaxR (data.map fun d => d.incrementalOpportunity)
  let minOpportunity := listMinR (data.map fun d => d.incrementalOpportunity)
  let sizeRange := maxOpportunity - minOpportunity
  let cagrMin := listMinR (data.map fun d => d.cagrIndex)
  let cagrMax := listMaxR (data.map fun d => d.cagrIndex)
  let shareMin := listMinR (data.map fun d => d.marketShareIndex)
  let shareMax := listMaxR (data.map fun d => d.marketShareIndex)
  let cagrRange := orOne (cagrMax - cagrMin)
  let shareRange := orOne (shareMax - shareMin)
  let pixelToDataX := cagrRange / 450
  let pixelToDataY := shareRange / 300
  { minOpportunity := minOpportunity, sizeRange := sizeRange,
    pixelToData := max pixelToDataX pixelToDataY }

/-- The full resolver, also reporting how many random draws it consumed. -/
noncomputable def sepRun (rand : ℕ → ℝ) (data : List BubbleDatum) :
    List BubbleDatum × ℕ :=
  if data.length ≤ 1 then (data, 0)
  else
    let final := sepLoop (sepConstsOf data) rand 200
      { bubbles := data, k := 0, hasOverlap := false }
    (final.bubbles, final.k)

/-- `separateBubbleData` under an explicit `Math.random()` stream. -/
noncomputable def separateBubbleData (rand : ℕ → ℝ) (data : List BubbleDatum) :
    List BubbleDatum :=
  (sepRun rand data).1

/-! Draw-counter monotonicity and stream-irrelevance of draw-free steps. -/

lemma pairStep_k_mono (C : SepConsts) (rand : ℕ → ℝ) (st : SepState) (p : ℕ × ℕ) :
    st.k ≤ (pairStep C rand st p).k := by
  simp only [pairStep]
  split_ifs <;> simp

lemma pairStep_stream_irrel (C : SepConsts) (r1 r2 : ℕ → ℝ) (st : SepState)
    (p : ℕ × ℕ) (hk : (pairStep C r1 st p).k = st.k) :
    pairStep C r2 st p = pairStep C r1 st p := by
  revert hk
  simp only [pairStep]
  split_ifs with h1 h2 <;> intro hk
  · rfl
  · simp at hk
  · rfl

lemma foldl_pairStep_k_mono (C : SepConsts) (rand : ℕ → ℝ) :
    ∀ (ps : List (ℕ × ℕ)) (st : SepState),
      st.k ≤ (ps.foldl (pairStep C rand) st).k := by
  intro ps
  induction ps with
  | nil => intro st; simp
  | cons p t ih =>
    intro st
    calc st.k ≤ (pairStep C rand st p).k := pairStep_k_mono C rand st p
      _ ≤ (t.foldl (pairStep C rand) (pairStep C rand st p)).k := ih _
      _ = ((p :: t).foldl (pairStep C rand) st).k := by rw [List.foldl_cons]

lemma foldl_pairStep_stream_irrel (C : SepConsts) (r1 r2 : ℕ → ℝ) :
    ∀ (ps : List (ℕ × ℕ)) (st : SepState),
      (ps.foldl (pairStep C r1) st).k = st.k →
      ps.foldl (pairStep C r2) st = ps.foldl (pairStep C r1) st := by
  intro ps
  induction ps with
  | nil => intro st _; rfl
  | cons p t ih =>
    intro st hk
    rw [List.foldl_cons] at hk
    have h1 : (pairStep C r1 st p).k = st.k :=
      le_antisymm (hk ▸ foldl_pairStep_k_mono C r1 t (pairStep C r1 st p))
        (pairStep_k_mono C r1 st p)
    have h2 : pairStep C r2 st p = pairStep C r1 st p :=
      pairStep_stream_irrel C r1 r2 st p h1
    rw [List.foldl_cons, List.foldl_cons, h2, ih _ (by rw [hk, h1])]

lemma sepPass_k_mono (C : SepConsts) (rand : ℕ → ℝ) (st : SepState) :
    st.k ≤ (sepPass C rand st).k := by
  have h := foldl_pairStep_k_mono C rand (pairList st.bubbles.length)
    { st with hasOverlap := false }
  simpa [sepPass] using h

lemma sepPass_stream_irrel (C : SepConsts) (r1 r2 : ℕ → ℝ) (st : SepState)
    (hk : (sepPass C r1 st).k = st.k) :
    sepPass C r2 st = sepPass C r1 st := by
  simp only [sepPass] at hk ⊢
  exact foldl_pairStep_stream_irrel C r1 r2 _ _ hk

lemma sepLoop_k_mono (C : SepConsts) (rand : ℕ → ℝ) :
    ∀ (n : ℕ) (st : SepState), st.k ≤ (sepLoop C rand n st).k := by
  intro n
  induction n with
  | zero => intro st; exact le_rfl
  | succ m ih =>
    intro st
    have hp := sepPass_k_mono C rand st
    simp only [sepLoop]
    split_ifs with h
    · exact hp.trans (ih _)
    · exact hp

lemma sepLoop_stream_irrel (C : SepConsts) (r1 r2 : ℕ → ℝ) :
    ∀ (n : ℕ) (st : SepState), (sepLoop C r1 n st).k = st.k →
      sepLoop C r2 n st = sepLoop C r1 n st := by
  intro n
  induction n with
  | zero => intro st _; rfl
  | succ m ih =>
    intro st hk
    simp only [sepLoop] at hk ⊢
    have hpk : (sepPass C r1 st).k = st.k := by
      by_cases h : (sepPass C r1 st).hasOverlap
      · rw [if_pos h] at hk
        exact le_antisymm (hk ▸ sepLoop_k_mono C r1 m (sepPass C r1 st))
          (sepPass_k_mono C r1 st)
      · rw [if_neg h] at hk
        exact hk
    have hpass : sepPass C r2 st = sepPass C r1 st :=
      sepPass_stream_irrel C r1 r2 st hpk
    rw [hpass]
    split_ifs with h
    · rw [if_pos h] at hk
      exact ih _ (by rw [hk, hpk])
    · rfl

/-! Helper reductions for two-element bubble lists. -/

lemma getD_two_zero (x y : BubbleDatum) : [x, y].getD 0 default = x := rfl

lemma getD_two_one (x y : BubbleDatum) : [x, y].getD 1 default = y := rfl

lemma set_two (x y b1 b2 : BubbleDatum) : ([x, y].set 0 b1).set 1 b2 = [b1, b2] := rfl

lemma sepPass_two (C : SepConsts) (r : ℕ → ℝ) (b1 b2 : BubbleDatum) (k0 : ℕ) (flag : Bool) :
    sepPass C r ⟨[b1, b2], k0, flag⟩ = pairStep C r ⟨[b1, b2], k0, false⟩ (0, 1) := by
  simp only [sepPass]
  rw [show pairList ([b1, b2] : List BubbleDatum).length = [((0 : ℕ), (1 : ℕ))] from rfl]
  rw [List.foldl_cons, List.foldl_nil]

lemma sepLoop_succ_overlap (C : SepConsts) (r : ℕ → ℝ) (n : ℕ) (st st2 : SepState)
    (h : sepPass C r st = st2) (h2 : st2.hasOverlap = true) :
    sepLoop C r (n + 1) st = sepLoop C r n st2 := by
  simp only [sepLoop, h, if_pos h2]

lemma clampCoord_eq_of (x y : ℝ) (h : x = y) (h0 : 0 ≤ y) (h10 : y ≤ 10) :
    clampCoord x = y := by
  rw [h]; unfold clampCoord; rw [min_eq_right h10, max_eq_right h0]

/-! The concrete two-bubble counterexample: both bubbles start at the exact
same point (5, 5) with equal opportunity 100, as happens whenever two
entities tie on every index. -/

noncomputable def bubbleCE1 : BubbleDatum := ⟨"A", 5, 5, 100, none⟩

noncomputable def bubbleCE2 : BubbleDatum := ⟨"B", 5, 5, 100, none⟩

noncomputable def dataCE : List BubbleDatum := [bubbleCE1, bubbleCE2]

noncomputable def randZero : ℕ → ℝ := fun _ => 0

noncomputable def randHalf : ℕ → ℝ := fun _ => 1 / 2

/-- The constants the resolver computes for `dataCE`. -/
noncomputable def sepCE : SepConsts := ⟨100, 0, 1 / 300⟩

lemma sepConstsOf_dataCE : sepConstsOf dataCE = sepCE := by
  simp only [sepConstsOf, dataCE, bubbleCE1, bubbleCE2, sepCE, List.map_cons, List.map_nil,
    listMaxR, listMinR, List.foldl_cons, List.foldl_nil, max_self, min_self, orOne,
    SepConsts.mk.injEq]
  norm_num [max_def]

lemma getBubbleSize_sepCE (x : ℝ) : getBubbleSize sepCE x = 100 := by
  simp [getBubbleSize, sepCE]

lemma sepCE_pixelToData : sepCE.pixelToData = 1 / 300 := rfl

/-- After the first coincidence push the two bubbles sit symmetrically about
`x = 5` at horizontal offset `t`; run A keeps bubble "A" on the left. -/
noncomputable def symPairA (t : ℝ) : List BubbleDatum :=
  [⟨"A", 5 - t, 5, 100, none⟩, ⟨"B", 5 + t, 5, 100, none⟩]

/-- Mirror configuration: bubble "A" pushed to the right. -/
noncomputable def symPairB (t : ℝ) : List BubbleDatum :=
  [⟨"A", 5 + t, 5, 100, none⟩, ⟨"B", 5 - t, 5, 100, none⟩]

lemma sepPass_symPairA (r : ℕ → ℝ) (t : ℝ) (k0 : ℕ) (flag : Bool)
    (h1 : 2 / 15 ≤ t) (h2 : t < 4 / 15) :
    sepPass sepCE r ⟨symPairA t, k0, flag⟩ = ⟨symPairA (t / 2 + 2 / 15), k0, true⟩ := by
  have ht0 : (0 : ℝ) < t := by linarith
  have ht2 : (2 : ℝ) * t ≠ 0 := by linarith
  simp only [symPairA]
  rw [sepPass_two]
  simp only [pairStep, getD_two_zero, getD_two_one, getBubbleSize_sepCE,
    minSeparationFactor, sepCE_pixelToData]
  rw [show (5 + t - (5 - t)) * (5 + t - (5 - t)) + ((5 : ℝ) - 5) * (5 - 5) = (2 * t) ^ 2
      from by ring,
    Real.sqrt_sq (by linarith : (0 : ℝ) ≤ 2 * t)]
  rw [if_pos (⟨by linarith, by linarith⟩ :
    2 * t < (100 / 2 * (1 / 300) + 100 / 2 * (1 / 300)) * 1.6 ∧ (0.0001 : ℝ) < 2 * t)]
  rw [set_two]
  congr 1
  congr 1
  · congr 1
    · exact clampCoord_eq_of _ _ (by field_simp; ring) (by linarith) (by linarith)
    · exact clampCoord_eq_of _ _ (by field_simp) (by norm_num) (by norm_num)
  congr 1
  congr 1
  · exact clampCoord_eq_of _ _ (by field_simp; ring) (by linarith) (by linarith)
  · exact clampCoord_eq_of _ _ (by field_simp) (by norm_num) (by norm_num)

lemma sepPass_symPairB (r : ℕ → ℝ) (t : ℝ) (k0 : ℕ) (flag : Bool)
    (h1 : 2 / 15 ≤ t) (h2 : t < 4 / 15) :
    sepPass sepCE r ⟨symPairB t, k0, flag⟩ = ⟨symPairB (t / 2 + 2 / 15), k0, true⟩ := by
  have ht0 : (0 : ℝ) < t := by linarith
  have ht2 : (2 : ℝ) * t ≠ 0 := by linarith
  simp only [symPairB]
  rw [sepPass_two]
  simp only [pairStep, getD_two_zero, getD_two_one, getBubbleSize_sepCE,
    minSeparationFactor, sepCE_pixelToData]
  rw [show (5 - t - (5 + t)) * (5 - t - (5 + t)) + ((5 : ℝ) - 5) * (5 - 5) = (2 * t) ^ 2
      from by ring,
    Real.sqrt_sq (by linarith : (0 : ℝ) ≤ 2 * t)]
  rw [if_pos (⟨by linarith, by linarith⟩ :
    2 * t < (100 / 2 * (1 / 300) + 100 / 2 * (1 / 300)) * 1.6 ∧ (0.0001 : ℝ) < 2 * t)]
  rw [set_two]
  congr 1
  congr 1
  · congr 1
    · exact clampCoord_eq_of _ _ (by field_simp; ring) (by linarith) (by linarith)
    · exact clampCoord_eq_of _ _ (by field_simp) (by norm_num) (by norm_num)
  congr 1
  congr 1
  · exact clampCoord_eq_of _ _ (by field_simp; ring) (by linarith) (by linarith)
  · exact clampCoord_eq_of _ _ (by field_simp) (by norm_num) (by norm_num)

lemma sepLoop_symPairA (r : ℕ → ℝ) :
    ∀ (n : ℕ) (t : ℝ) (k0 : ℕ) (flag : Bool), 2 / 15 ≤ t → t < 4 / 15 →
      ∃ u b, 2 / 15 ≤ u ∧ u < 4 / 15 ∧
        sepLoop sepCE r n ⟨symPairA t, k0, flag⟩ = ⟨symPairA u, k0, b⟩ := by
  intro n
  induction n with
  | zero => intro t k0 flag h1 h2; exact ⟨t, flag, h1, h2, rfl⟩
  | succ m ih =>
    intro t k0 flag h1 h2
    obtain ⟨u, b, hu1, hu2, heq⟩ :=
      ih (t / 2 + 2 / 15) k0 true (by linarith) (by linarith)
    refine ⟨u, b, hu1, hu2, ?_⟩
    rw [sepLoop_succ_overlap sepCE r m _ _ (sepPass_symPairA r t k0 flag h1 h2) rfl]
    exact heq

lemma sepLoop_symPairB (r : ℕ → ℝ) :
    ∀ (n : ℕ) (t : ℝ) (k0 : ℕ) (flag : Bool), 2 / 15 ≤ t → t < 4 / 15 →
      ∃ u b, 2 / 15 ≤ u ∧ u < 4 / 15 ∧
        sepLoop sepCE r n ⟨symPairB t, k0, flag⟩ = ⟨symPairB u, k0, b⟩ := by
  intro n
  induction n with
  | zero => intro t k0 flag h1 h2; exact ⟨t, flag, h1, h2, rfl⟩
  | succ m ih =>
    intro t k0 flag h1 h2
    obtain ⟨u, b, hu1, hu2, heq⟩ :=
      ih (t / 2 + 2 / 15) k0 true (by linarith) (by linarith)
    refine ⟨u, b, hu1, hu2, ?_⟩
    rw [sepLoop_succ_overlap sepCE r m _ _ (sepPass_symPairB r t k0 flag h1 h2) rfl]
    exact heq

/-- First pass on the coincident pair under the all-zeros stream: the angle is
`0`, so bubble "A" is pushed left and "B" right by `2/15`. -/
lemma sepPass_dataCE_randZero (flag : Bool) :
    sepPass sepCE randZero ⟨dataCE, 0, flag⟩ = ⟨symPairA (2 / 15), 1, true⟩ := by
  simp only [dataCE, bubbleCE1, bubbleCE2]
  rw [sepPass_two]
  simp only [pairStep, getD_two_zero, getD_two_one, getBubbleSize_sepCE,
    minSeparationFactor, sepCE_pixelToData, randZero]
  rw [show ((5 : ℝ) - 5) * (5 - 5) + ((5 : ℝ) - 5) * (5 - 5) = 0 from by ring,
    Real.sqrt_zero]
  rw [if_neg (fun hc => absurd hc.2 (by norm_num))]
  rw [if_pos (Or.inl rfl)]
  rw [show (0 : ℝ) * Real.pi * 2 = 0 from by ring, Real.cos_zero, Real.sin_zero]
  rw [set_two]
  simp only [symPairA]
  congr 1
  congr 1
  · congr 1
    · exact clampCoord_eq_of _ _ (by norm_num) (by norm_num) (by norm_num)
    · exact clampCoord_eq_of _ _ (by norm_num) (by norm_num) (by norm_num)
  congr 1
  congr 1
  · exact clampCoord_eq_of _ _ (by norm_num) (by norm_num) (by norm_num)
  · exact clampCoord_eq_of _ _ (by norm_num) (by norm_num) (by norm_num)

/-- First pass on the coincident pair under the constant-`1/2` stream: the
angle is `π`, so bubble "A" is pushed right and "B" left by `2/15`. -/
lemma sepPass_dataCE_randHalf (flag : Bool) :
    sepPass sepCE randHalf ⟨dataCE, 0, flag⟩ = ⟨symPairB (2 / 15), 1, true⟩ := by
  simp only [dataCE, bubbleCE1, bubbleCE2]
  rw [sepPass_two]
  simp only [pairStep, getD_two_zero, getD_two_one, getBubbleSize_sepCE,
    minSeparationFactor, sepCE_pixelToData, randHalf]
  rw [show ((5 : ℝ) - 5) * (5 - 5) + ((5 : ℝ) - 5) * (5 - 5) = 0 from by ring,
    Real.sqrt_zero]
  rw [if_neg (fun hc => absurd hc.2 (by norm_num))]
  rw [if_pos (Or.inl rfl)]
  rw [show (1 / 2 : ℝ) * Real.pi * 2 = Real.pi from by ring, Real.cos_pi, Real.sin_pi]
  rw [set_two]
  simp only [symPairB]
  congr 1
  congr 1
  · congr 1
    · exact clampCoord_eq_of _ _ (by norm_num) (by norm_num) (by norm_num)
    · exact clampCoord_eq_of _ _ (by norm_num) (by norm_num) (by norm_num)
  congr 1
  congr 1
  · exact clampCoord_eq_of _ _ (by norm_num) (by norm_num) (by norm_num)
  · exact clampCoord_eq_of _ _ (by norm_num) (by norm_num) (by norm_num)

/-- **C2** (counterexample): the bubble layout resolver is NOT deterministic
in its input alone.  On two exactly coincident bubbles (both at `(5, 5)` with
equal opportunity) the exact-overlap branch pushes the pair along
`Math.random() * π * 2`; under the all-zeros stream bubble "A" ends strictly
left of `x = 5`, under the constant-`1/2` stream strictly right, so the two
returned layouts differ. -/
theorem separateBubbleData_depends_on_random :
    separateBubbleData randHalf dataCE ≠ separateBubbleData randZero dataCE := by
  have hlen : ¬(dataCE.length ≤ 1) := by simp [dataCE]
  obtain ⟨u, b, hu1, hu2, hA⟩ :=
    sepLoop_symPairA randZero 199 (2 / 15) 1 true (le_refl _) (by norm_num)
  obtain ⟨v, c, hv1, hv2, hB⟩ :=
    sepLoop_symPairB randHalf 199 (2 / 15) 1 true (le_refl _) (by norm_num)
  have eA : separateBubbleData randZero dataCE = symPairA u := by
    simp only [separateBubbleData, sepRun, if_neg hlen, sepConstsOf_dataCE]
    rw [show (200 : ℕ) = 199 + 1 from rfl,
      sepLoop_succ_overlap sepCE randZero 199 _ _ (sepPass_dataCE_randZero false) rfl,
      hA]
  have eB : separateBubbleData randHalf dataCE = symPairB v := by
    simp only [separateBubbleData, sepRun, if_neg hlen, sepConstsOf_dataCE]
    rw [show (200 : ℕ) = 199 + 1 from rfl,
      sepLoop_succ_overlap sepCE randHalf 199 _ _ (sepPass_dataCE_randHalf false) rfl,
      hB]
  intro heq
  rw [eB, eA] at heq
  have h1 : (5 : ℝ) + v = 5 - u :=
    congrArg (fun l => (l.headD default).cagrIndex) heq
  linarith

/-- **C2** (amended): the resolver is deterministic given the same entity
ordering and input values PROVIDED it never takes the exact-coincidence
branch, i.e. consumes no `Math.random()` draw: if a run under one stream
reports zero draws consumed, every stream produces the same layout.  (The
counterexample shows the proviso is necessary.) -/
theorem separateBubbleData_deterministic_without_draws
    (data : List BubbleDatum) (r1 r2 : ℕ → ℝ)
    (h : (sepRun r1 data).2 = 0) :
    separateBubbleData r2 data = separateBubbleData r1 data := by
  by_cases hl : data.length ≤ 1
  · simp only [separateBubbleData, sepRun, if_pos hl]
  · have h2 : (sepLoop (sepConstsOf data) r1 200
        { bubbles := data, k := 0, hasOverlap := false }).k = 0 := by
      simpa only [sepRun, if_neg hl] using h
    simp only [separateBubbleData, sepRun, if_neg hl]
    rw [sepLoop_stream_irrel (sepConstsOf data) r1 r2 200 _ h2]

noncomputable def singleBubbleCE : BubbleDatum := ⟨"India", 5, 5, 100, none⟩

theorem separateBubbleData_deterministic_without_draws_witness :
    (sepRun randZero [singleBubbleCE]).2 = 0 ∧
      separateBubbleData randHalf [singleBubbleCE] =
        separateBubbleData randZero [singleBubbleCE] :=
  ⟨rfl, separateBubbleData_deterministic_without_draws [singleBubbleCE]
    randZero randHalf rfl⟩

end SalesAnalysis
